import Mathlib

/-!
# Lingua: chunked audio upload, reassembly and the recording registry

A shallow embedding of the chunked-upload path of the repository:

* `src/back/database/db.js`: the SQLite tables `audio_recordings`, `audio_chunks` and
  `streaming_chunks`, and the queries of the `Database` class;
* `src/back/server.js`: the Express handlers `upload-chunk`, `finalize-chunked-upload`,
  the listing, fetch, download and delete routes;
* `src/lingua-front/app/(tabs)/index.tsx`: the client driver `uploadToBackend`.

Modelling conventions.

* A table is the list of its rows in rowid (insertion) order.
* A byte is a `Fin 256`, a `Buffer` is a list of bytes.
* A JSON body field that may be absent is an `Option`; the fields carry the types the
  routes document (strings, integers). JavaScript truthiness of such a field is
  `truthyString` / `truthyInt`.
* The wall clock (`Date.now()`, `CURRENT_TIMESTAMP`) is an explicit argument `now`.
* The connection is opened by `new sqlite3.Database(DB_PATH)` and no statement of the
  repository issues `PRAGMA foreign_keys = ON`, so SQLite does not enforce the
  `FOREIGN KEY ... ON DELETE CASCADE` clause of `audio_chunks`: a chunk may be inserted
  before its recording exists and deleting a recording leaves its chunks in place.
* `Buffer.from(text, 'base64')` and the Base64 file read of the client are runtime
  library functions; they are modelled after RFC 4648 and the lenient Node decoder.
-/

namespace Lingua

/-! ## Bytes and Base64 -/

/-- One octet. -/
abbrev Byte := Fin 256

/-- Node `Buffer`: a sequence of octets. -/
abbrev Buffer := List Byte

/-- The octet with value `n mod 256`. -/
def byteOf (n : Nat) : Byte := ⟨n % 256, Nat.mod_lt n (by decide)⟩

/-- The character of the standard Base64 alphabet for the sextet `n`. -/
def base64Char (n : Nat) : Char :=
  if n < 26 then Char.ofNat (65 + n)
  else if n < 52 then Char.ofNat (97 + (n - 26))
  else if n < 62 then Char.ofNat (48 + (n - 52))
  else if n = 62 then '+'
  else '/'

/-- The sextet denoted by a character, `none` for a character outside the alphabet.
Node accepts the URL-safe characters as well. -/
def unbase64 (c : Char) : Option Nat :=
  let v := c.toNat
  if 65 ≤ v ∧ v ≤ 90 then some (v - 65)
  else if 97 ≤ v ∧ v ≤ 122 then some (v - 71)
  else if 48 ≤ v ∧ v ≤ 57 then some (v + 4)
  else if v = 43 ∨ v = 45 then some 62
  else if v = 47 ∨ v = 95 then some 63
  else none

/-- Standard padded Base64 text of a byte sequence (RFC 4648), as produced by
`FileSystem.readAsStringAsync(path, { encoding: Base64 })`. -/
def base64Encode : List Byte → List Char
  | a :: b :: c :: rest =>
      base64Char (a.val / 4) :: base64Char ((a.val % 4) * 16 + b.val / 16) ::
      base64Char ((b.val % 16) * 4 + c.val / 64) :: base64Char (c.val % 64) ::
      base64Encode rest
  | [a, b] =>
      [base64Char (a.val / 4), base64Char ((a.val % 4) * 16 + b.val / 16),
       base64Char ((b.val % 16) * 4), '=']
  | [a] => [base64Char (a.val / 4), base64Char ((a.val % 4) * 16), '=', '=']
  | [] => []

/-- Bytes of a stream of sextets: every full group of four gives three bytes, a final
group of three gives two, of two gives one, and a lone final sextet gives none. -/
def decodeSextets : List Nat → List Byte
  | a :: b :: c :: d :: rest =>
      byteOf (a * 4 + b / 16) :: byteOf ((b % 16) * 16 + c / 4) :: byteOf ((c % 4) * 64 + d) ::
      decodeSextets rest
  | [a, b, c] => [byteOf (a * 4 + b / 16), byteOf ((b % 16) * 16 + c / 4)]
  | [a, b] => [byteOf (a * 4 + b / 16)]
  | [_] => []
  | [] => []

/-- The sextets the Node decoder reads from a text: it stops at the first `=` and skips
every character outside the alphabet. -/
def base64Sextets (text : List Char) : List Nat :=
  (text.takeWhile (fun c => c != '=')).filterMap unbase64

/-- `Buffer.from(text, 'base64')`. -/
def bufferFromBase64 (text : String) : Buffer :=
  decodeSextets (base64Sextets text.data)

/-! ## JavaScript truthiness of body fields -/

/-- Truthiness of an optional string field: absent and `""` are falsy. -/
def truthyString : Option String → Bool
  | some s => s != ""
  | none => false

/-- Truthiness of an optional integer field: absent and `0` are falsy. -/
def truthyInt : Option Int → Bool
  | some n => n != 0
  | none => false

/-- The expression `a || b` for an optional string `a` and a string `b`. -/
def orString (a : Option String) (b : String) : String :=
  if truthyString a then a.getD b else b

/-- The expression `a || b` for an optional integer `a` and an integer `b`. -/
def orInt (a : Option Int) (b : Int) : Int :=
  if truthyInt a then a.getD b else b

/-! ## Tables (`createTables`, db.js 34-104) -/

/-- A row of `audio_recordings`. -/
structure AudioRecording where
  id : String
  filename : String
  original_name : String
  audio_data : Buffer
  file_size : Int
  mime_type : String
  upload_date : Nat
  created_at : Nat
  updated_at : Nat
  deriving DecidableEq, Repr

/-- A row of `audio_chunks`. -/
structure AudioChunk where
  id : Nat
  recording_id : String
  chunk_index : Int
  chunk_data : Buffer
  chunk_size : Nat
  created_at : Nat
  deriving DecidableEq, Repr

/-- A row of `streaming_chunks`. -/
structure StreamingChunk where
  id : Nat
  recording_id : String
  chunk_index : Int
  chunk_data : Buffer
  chunk_size : Nat
  timestamp : Int
  created_at : Nat
  deriving DecidableEq, Repr

/-- The content of the database file. `audio_chunks_seq` and `streaming_chunks_seq` are
the `AUTOINCREMENT` counters of the two chunk tables. -/
structure Database where
  audio_recordings : List AudioRecording
  audio_chunks : List AudioChunk
  streaming_chunks : List StreamingChunk
  audio_chunks_seq : Nat
  streaming_chunks_seq : Nat
  deriving DecidableEq, Repr

/-- The database right after `createTables` on a fresh file: three empty tables. -/
def Database.empty : Database :=
  { audio_recordings := [], audio_chunks := [], streaming_chunks := [],
    audio_chunks_seq := 0, streaming_chunks_seq := 0 }

/-- The columns selected by `getAllAudioRecords` and `getAudioRecordById`: every column
of `audio_recordings` except `audio_data`. -/
structure AudioRecordSummary where
  id : String
  filename : String
  original_name : String
  file_size : Int
  mime_type : String
  upload_date : Nat
  created_at : Nat
  updated_at : Nat
  deriving DecidableEq, Repr

/-- The projection of a row of `audio_recordings` on the summary columns. -/
def AudioRecording.summary (r : AudioRecording) : AudioRecordSummary :=
  { id := r.id, filename := r.filename, original_name := r.original_name,
    file_size := r.file_size, mime_type := r.mime_type, upload_date := r.upload_date,
    created_at := r.created_at, updated_at := r.updated_at }

/-! ## Queries of the `Database` class (db.js) -/

/-- The object handed to `saveAudioRecord`. -/
structure AudioRecordInput where
  id : String
  filename : String
  originalName : String
  audioData : Buffer
  size : Int
  mimeType : String
  uploadDate : Nat
  deriving DecidableEq, Repr

/-- The errors with which a statement is rejected. -/
inductive DbError where
  | constraintPrimaryKey
  deriving DecidableEq, Repr

/-- The value `{ id, changes }` a write resolves to. -/
structure RunResult where
  id : String
  changes : Nat
  deriving DecidableEq, Repr

/-- `saveAudioRecord` (db.js 107-135): `INSERT INTO audio_recordings`. The statement is
rejected when a row with the same `id` exists (`id TEXT PRIMARY KEY`); otherwise one row
is appended, `created_at` and `updated_at` taking `CURRENT_TIMESTAMP`. -/
def saveAudioRecord (db : Database) (now : Nat) (audioData : AudioRecordInput) :
    Except DbError (Database × RunResult) :=
  if db.audio_recordings.any (fun r => r.id == audioData.id) then
    .error .constraintPrimaryKey
  else
    .ok ({ db with
            audio_recordings := db.audio_recordings ++
              [{ id := audioData.id, filename := audioData.filename,
                 original_name := audioData.originalName, audio_data := audioData.audioData,
                 file_size := audioData.size, mime_type := audioData.mimeType,
                 upload_date := audioData.uploadDate, created_at := now,
                 updated_at := now }] },
         { id := audioData.id, changes := 1 })

/-- The value `{ chunkIndex, size }` that `saveAudioChunk` resolves to. -/
structure ChunkAck where
  chunkIndex : Int
  size : Nat
  deriving DecidableEq, Repr

/-- `saveAudioChunk` (db.js 138-156): `INSERT INTO audio_chunks`. No uniqueness
constraint bears on `(recording_id, chunk_index)`, so the row is always appended. -/
def saveAudioChunk (db : Database) (now : Nat) (recordingId : String) (chunkIndex : Int)
    (chunkData : Buffer) : Database × ChunkAck :=
  ({ db with
      audio_chunks := db.audio_chunks ++
        [{ id := db.audio_chunks_seq + 1, recording_id := recordingId,
           chunk_index := chunkIndex, chunk_data := chunkData,
           chunk_size := chunkData.length, created_at := now }],
      audio_chunks_seq := db.audio_chunks_seq + 1 },
   { chunkIndex := chunkIndex, size := chunkData.length })

/-- The order of `ORDER BY chunk_index ASC` on chunk rows. -/
def chunkIndexLe (a b : AudioChunk) : Prop := a.chunk_index ≤ b.chunk_index

instance : DecidableRel chunkIndexLe := fun a b => Int.decLe a.chunk_index b.chunk_index

/-- The rows `SELECT ... FROM audio_chunks WHERE recording_id = ? ORDER BY chunk_index ASC`
returns: the matching rows, sorted by `chunk_index`; rows with equal index keep their
rowid order. -/
def selectChunksOrdered (db : Database) (recordingId : String) : List AudioChunk :=
  List.insertionSort chunkIndexLe (db.audio_chunks.filter (fun row => row.recording_id == recordingId))

/-- `assembleAudioFromChunks` (db.js 159-178): `Buffer.concat` of the `chunk_data` of the
selected rows. -/
def assembleAudioFromChunks (db : Database) (recordingId : String) : Buffer :=
  let rows := selectChunksOrdered db recordingId
  let chunks := rows.map (fun row => row.chunk_data)
  chunks.flatten

/-- `getAudioData` (db.js 181-194): the `audio_data` of the row with this id, `none`
(JavaScript `null`) when there is no such row. -/
def getAudioData (db : Database) (id : String) : Option Buffer :=
  (db.audio_recordings.find? (fun r => r.id == id)).map (fun row => row.audio_data)

/-- The order of `ORDER BY created_at DESC` on recording rows. -/
def createdAtGe (a b : AudioRecording) : Prop := b.created_at ≤ a.created_at

instance : DecidableRel createdAtGe := fun a b => Nat.decLe b.created_at a.created_at

/-- `getAllAudioRecords` (db.js 197-222): the summaries of all rows, newest first. -/
def getAllAudioRecords (db : Database) : List AudioRecordSummary :=
  (List.insertionSort createdAtGe db.audio_recordings).map AudioRecording.summary

/-- `getAudioRecordById` (db.js 225-250): the summary of the row with this id, `none`
(JavaScript `undefined`) when there is no such row. -/
def getAudioRecordById (db : Database) (id : String) : Option AudioRecordSummary :=
  (db.audio_recordings.find? (fun r => r.id == id)).map AudioRecording.summary

/-- `deleteAudioRecord` (db.js 253-267): `DELETE FROM audio_recordings WHERE id = ?`.
Foreign keys are not enforced on the connection, so no other table changes. -/
def deleteAudioRecord (db : Database) (id : String) : Database × RunResult :=
  ({ db with audio_recordings := db.audio_recordings.filter (fun r => r.id != id) },
   { id := id, changes := (db.audio_recordings.filter (fun r => r.id == id)).length })

/-! ## HTTP handlers (server.js) -/

/-- The JSON body of `POST /api/audio/upload-chunk`. -/
structure UploadChunkBody where
  recordingId : Option String
  chunkIndex : Option Int
  chunkData : Option String
  deriving DecidableEq, Repr

/-- The JSON body of `POST /api/audio/finalize-chunked-upload`. -/
structure FinalizeBody where
  recordingId : Option String
  filename : Option String
  originalName : Option String
  mimeType : Option String
  totalSize : Option Int
  deriving DecidableEq, Repr

/-- What a handler sends back, apart from the status code. -/
inductive ResponseBody where
  | error (error : String)
  | chunkSaved (data : ChunkAck)
  | finalized (id : String) (filename : String) (uploadDate : Nat) (size : Int)
  | recordings (data : List AudioRecordSummary)
  | recording (data : AudioRecordSummary)
  | deleted
  | download (contentType : String) (contentDisposition : String) (contentLength : Nat)
      (payload : Buffer)
  deriving DecidableEq, Repr

/-- An HTTP response. -/
structure Response where
  status : Nat
  body : ResponseBody
  deriving DecidableEq, Repr

/-- The field `success` of the JSON body, as tested by the client (`!result.success`):
the error bodies and the raw download carry no such field. -/
def Response.success (r : Response) : Bool :=
  match r.body with
  | .error _ => false
  | .download _ _ _ _ => false
  | _ => true

/-- `POST /api/audio/upload-chunk` (server.js 95-118). -/
def uploadChunk (db : Database) (now : Nat) (body : UploadChunkBody) : Database × Response :=
  if !truthyString body.recordingId || body.chunkIndex.isNone || !truthyString body.chunkData then
    (db, { status := 400, body := .error "Données de chunk manquantes" })
  else
    let chunkBuffer := bufferFromBase64 (body.chunkData.getD "")
    let (db1, result) :=
      saveAudioChunk db now (body.recordingId.getD "") (body.chunkIndex.getD 0) chunkBuffer
    (db1, { status := 200, body := .chunkSaved result })

/-- `POST /api/audio/finalize-chunked-upload` (server.js 121-159). -/
def finalizeChunkedUpload (db : Database) (now : Nat) (body : FinalizeBody) :
    Database × Response :=
  if !truthyString body.recordingId then
    (db, { status := 400, body := .error "ID d\x27enregistrement manquant" })
  else
    let recordingId := body.recordingId.getD ""
    let completeAudio := assembleAudioFromChunks db recordingId
    let audioRecord : AudioRecordInput :=
      { id := recordingId,
        filename := "lingua_" ++ orString body.filename ("recording_" ++ toString now ++ ".m4a"),
        originalName := orString body.originalName "recording.m4a",
        audioData := completeAudio,
        size := orInt body.totalSize completeAudio.length,
        mimeType := orString body.mimeType "audio/mp4",
        uploadDate := now }
    match saveAudioRecord db now audioRecord with
    | .error _ => (db, { status := 500, body := .error "Erreur serveur lors de la finalisation" })
    | .ok (db1, _) =>
        (db1, { status := 200,
                body := .finalized audioRecord.id audioRecord.filename audioRecord.uploadDate
                          audioRecord.size })

/-- `GET /api/audio` (server.js 164-175). -/
def listAudio (db : Database) : Database × Response :=
  (db, { status := 200, body := .recordings (getAllAudioRecords db) })

/-- `GET /api/audio/:id` (server.js 178-192). -/
def getAudio (db : Database) (id : String) : Database × Response :=
  match getAudioRecordById db id with
  | none => (db, { status := 404, body := .error "Enregistrement non trouvé" })
  | some recording => (db, { status := 200, body := .recording recording })

/-- `DELETE /api/audio/:id` (server.js 195-213). -/
def deleteAudio (db : Database) (id : String) : Database × Response :=
  match getAudioRecordById db id with
  | none => (db, { status := 404, body := .error "Enregistrement non trouvé" })
  | some _ => ((deleteAudioRecord db id).1, { status := 200, body := .deleted })

/-- `GET /api/audio/:id/download` (server.js 216-240). A `Buffer` is an object and so is
truthy even when empty: the second 404 is sent only for a `null` payload. -/
def downloadAudio (db : Database) (id : String) : Database × Response :=
  match getAudioRecordById db id with
  | none => (db, { status := 404, body := .error "Enregistrement non trouvé" })
  | some recording =>
    match getAudioData db id with
    | none => (db, { status := 404, body := .error "Données audio non trouvées" })
    | some audioData =>
        (db, { status := 200,
               body := .download (if recording.mime_type != "" then recording.mime_type else "audio/mp4")
                         ("attachment; filename=\"" ++ recording.original_name ++ "\"")
                         audioData.length audioData })

/-- A request to the server. -/
inductive Request where
  | uploadChunk (body : UploadChunkBody)
  | finalizeChunkedUpload (body : FinalizeBody)
  | listAudio
  | getAudio (id : String)
  | deleteAudio (id : String)
  | downloadAudio (id : String)
  deriving DecidableEq, Repr

/-- The server: one request handled at wall-clock time `now`. -/
def handle (db : Database) (now : Nat) : Request → Database × Response
  | .uploadChunk body => uploadChunk db now body
  | .finalizeChunkedUpload body => finalizeChunkedUpload db now body
  | .listAudio => listAudio db
  | .getAudio id => getAudio db id
  | .deleteAudio id => deleteAudio db id
  | .downloadAudio id => downloadAudio db id

/-- The database after a sequence of requests, each paired with the time it is handled. -/
def run (db : Database) : List (Nat × Request) → Database
  | [] => db
  | (now, req) :: rest => run (handle db now req).1 rest

/-! ## Client driver (`uploadToBackend`, index.tsx 283-397) -/

/-- `chunkSize = 64 * 1024` (index.tsx 325). -/
def chunkSize : Nat := 64 * 1024

/-- `base64ChunkSize = Math.floor((chunkSize * 4) / 3)` (index.tsx 326). -/
def base64ChunkSize : Nat := (chunkSize * 4) / 3

/-- `totalChunks = Math.ceil(audioBase64.length / base64ChunkSize)` (index.tsx 327). -/
def totalChunks (audioBase64 : String) : Nat :=
  (audioBase64.length + base64ChunkSize - 1) / base64ChunkSize

/-- `String.prototype.slice(start, end)` for `0 ≤ start` and `0 ≤ end`. -/
def slice (s : String) (start stop : Nat) : String :=
  String.mk ((s.data.drop start).take (stop - start))

/-- The `chunkData` of iteration `i` of the upload loop (index.tsx 333-335). -/
def chunkSlice (audioBase64 : String) (i : Nat) : String :=
  let start := i * base64ChunkSize
  let stop := min (start + base64ChunkSize) audioBase64.length
  slice audioBase64 start stop

/-- How `uploadToBackend` ends. -/
inductive UploadOutcome where
  | uploaded
  | chunkFailed (i : Nat)
  | finalizeFailed
  deriving DecidableEq, Repr

/-- The upload loop (index.tsx 332-356) from iteration `i` with `remaining` iterations
to go, against a server in state `db`; request number `k` is handled at time `clock k`.
The result is the state of the server and, when a chunk was refused, its index. -/
def uploadChunksFrom (clock : Nat → Nat) (recordingId audioBase64 : String) :
    (remaining : Nat) → (i : Nat) → Database → Database × Option Nat
  | 0, _, db => (db, none)
  | remaining + 1, i, db =>
      let chunkData := chunkSlice audioBase64 i
      let (db1, chunkResult) :=
        uploadChunk db (clock i)
          { recordingId := some recordingId, chunkIndex := some (i : Int), chunkData := some chunkData }
      if !chunkResult.success then (db1, some i)
      else uploadChunksFrom clock recordingId audioBase64 remaining (i + 1) db1

/-- `uploadToBackend` (index.tsx 283-397) for a file with content `file`, named
`filename`, under the generated identifier `recordingId`: the file is read as Base64
text, sliced, each slice is posted in turn, and the upload is finalized. -/
def uploadToBackend (clock : Nat → Nat) (recordingId filename : String) (file : Buffer)
    (db : Database) : Database × UploadOutcome :=
  let audioBase64 := String.mk (base64Encode file)
  let n := totalChunks audioBase64
  match uploadChunksFrom clock recordingId audioBase64 n 0 db with
  | (db1, some i) => (db1, .chunkFailed i)
  | (db1, none) =>
      let (db2, finalizeResult) :=
        finalizeChunkedUpload db1 (clock n)
          { recordingId := some recordingId, filename := some filename,
            originalName := some filename, mimeType := some "audio/mp4",
            totalSize := some (file.length : Int) }
      if !finalizeResult.success then (db2, .finalizeFailed) else (db2, .uploaded)

/-! ## Sequences of chunk stores -/

/-- The database after `saveAudioChunk(recordingId, index, payload)` has been performed
for each `(index, payload)` of the list, in list order; call number `k` happens at time
`clock k`. -/
def saveAudioChunks (clock : Nat → Nat) (recordingId : String) :
    List (Int × Buffer) → Nat → Database → Database
  | [], _, db => db
  | (chunkIndex, chunkData) :: rest, k, db =>
      saveAudioChunks clock recordingId rest (k + 1)
        (saveAudioChunk db (clock k) recordingId chunkIndex chunkData).1

/-- The pieces `p_0, ..., p_{N-1}` paired with their zero-based indices. -/
def indexed (pieces : List Buffer) : List (Int × Buffer) :=
  pieces.enum.map (fun ip => ((ip.1 : Int), ip.2))

/-- The `(chunk_index, chunk_data)` pairs of the rows of a recording, in rowid order. -/
def chunkViews (db : Database) (recordingId : String) : List (Int × Buffer) :=
  (db.audio_chunks.filter (fun row => row.recording_id == recordingId)).map
    (fun row => (row.chunk_index, row.chunk_data))

/-- The order of `ORDER BY chunk_index ASC` on `(chunk_index, chunk_data)` pairs. -/
def viewLe (a b : Int × Buffer) : Prop := a.1 ≤ b.1

instance : DecidableRel viewLe := fun a b => Int.decLe a.1 b.1

/-- Strictly increasing index on `(chunk_index, chunk_data)` pairs. -/
def viewLt (a b : Int × Buffer) : Prop := a.1 < b.1

/-- The field `data.size` of a JSON body, when it has one. -/
def Response.dataSize (r : Response) : Option Int :=
  match r.body with
  | .chunkSaved data => some (data.size : Int)
  | .finalized _ _ _ size => some size
  | _ => none

/-- The row `finalize-chunked-upload` inserts for a body whose `recordingId` is truthy
(server.js 132-143 with the column defaults of `audio_recordings`). -/
def finalizedRow (db : Database) (now : Nat) (body : FinalizeBody) : AudioRecording :=
  { id := body.recordingId.getD "",
    filename := "lingua_" ++ orString body.filename ("recording_" ++ toString now ++ ".m4a"),
    original_name := orString body.originalName "recording.m4a",
    audio_data := assembleAudioFromChunks db (body.recordingId.getD ""),
    file_size := orInt body.totalSize (assembleAudioFromChunks db (body.recordingId.getD "")).length,
    mime_type := orString body.mimeType "audio/mp4",
    upload_date := now, created_at := now, updated_at := now }

/-- The total `chunk_data` length of the rows of `audio_chunks` of a recording. -/
def storedChunkBytes (db : Database) (recordingId : String) : Nat :=
  ((db.audio_chunks.filter (fun row => row.recording_id == recordingId)).map
    (fun row => row.chunk_data.length)).sum

/-- A finalize request states the size truthfully when its `totalSize` is absent, zero,
or the length of what reassembly yields at that moment; other requests carry no size. -/
def totalSizeAgrees (db : Database) : Request → Prop
  | .finalizeChunkedUpload body =>
      truthyInt body.totalSize = false ∨
      body.totalSize = some ((assembleAudioFromChunks db (body.recordingId.getD "")).length : Int)
  | _ => True

/-- Every finalize request of a sequence states the size truthfully when it is handled. -/
def allSizesAgree (db : Database) : List (Nat × Request) → Prop
  | [] => True
  | (now, req) :: rest => totalSizeAgrees db req ∧ allSizesAgree (handle db now req).1 rest

/-- The `upload-chunk` request of iteration `i` of the loop (index.tsx 333-348). -/
def chunkRequest (recordingId audioBase64 : String) (i : Nat) : Request :=
  .uploadChunk
    { recordingId := some recordingId, chunkIndex := some (i : Int),
      chunkData := some (chunkSlice audioBase64 i) }

/-- The finalize request of the driver (index.tsx 359-372). -/
def finalizeRequest (recordingId filename : String) (fileSize : Nat) : Request :=
  .finalizeChunkedUpload
    { recordingId := some recordingId, filename := some filename,
      originalName := some filename, mimeType := some "audio/mp4",
      totalSize := some (fileSize : Int) }

/-- The upload loop (index.tsx 332-356) against an arbitrary server: `fetch` answers one
request in a server state. The result is the final server state, the exchanges in the
order the requests were issued, and, when a chunk was refused, its index. -/
def exchangeChunksFrom {σ : Type} (fetch : σ → Request → σ × Response)
    (recordingId audioBase64 : String) :
    (remaining : Nat) → (i : Nat) → σ → σ × List (Request × Response) × Option Nat
  | 0, _, st => (st, [], none)
  | remaining + 1, i, st =>
      let chunkResponse := fetch st (chunkRequest recordingId audioBase64 i)
      if !chunkResponse.2.success then
        (chunkResponse.1, [(chunkRequest recordingId audioBase64 i, chunkResponse.2)], some i)
      else
        let rest := exchangeChunksFrom fetch recordingId audioBase64 remaining (i + 1)
          chunkResponse.1
        (rest.1, (chunkRequest recordingId audioBase64 i, chunkResponse.2) :: rest.2.1, rest.2.2)

/-- `uploadToBackend` (index.tsx 283-397) against an arbitrary server, with the exchanges
it performs. -/
def uploadToBackendWith {σ : Type} (fetch : σ → Request → σ × Response)
    (recordingId filename : String) (file : Buffer) (st : σ) :
    σ × List (Request × Response) × UploadOutcome :=
  let audioBase64 := String.mk (base64Encode file)
  let chunks := exchangeChunksFrom fetch recordingId audioBase64 (totalChunks audioBase64) 0 st
  match chunks.2.2 with
  | some i => (chunks.1, chunks.2.1, .chunkFailed i)
  | none =>
      let finalizeResponse := fetch chunks.1 (finalizeRequest recordingId filename file.length)
      (finalizeResponse.1,
       chunks.2.1 ++ [(finalizeRequest recordingId filename file.length, finalizeResponse.2)],
       if !finalizeResponse.2.success then .finalizeFailed else .uploaded)

/-- The server of this repository as a `fetch`: the state is the database and the number
of requests handled so far; request number `k` is handled at time `clock k`. -/
def serverFetch (clock : Nat → Nat) (st : Database × Nat) (req : Request) :
    (Database × Nat) × Response :=
  (((handle st.1 (clock st.2) req).1, st.2 + 1), (handle st.1 (clock st.2) req).2)

/-- The total of the column `chunk_size` over the rows of `audio_chunks` of a recording. -/
def storedChunkSizes (db : Database) (recordingId : String) : Nat :=
  ((db.audio_chunks.filter (fun row => row.recording_id == recordingId)).map
    (fun row => row.chunk_size)).sum

/-! ## `updateAudioRecord` (db.js 270-301) -/

/-- A value bound to a `?` placeholder of a statement. -/
inductive SqlValue where
  | null
  | integer (n : Int)
  | text (s : String)
  | blob (b : Buffer)
  deriving DecidableEq, Repr

/-- A statement handed to `db.run`: the SQL text and the values bound to it. -/
structure Statement where
  query : String
  values : List SqlValue
  deriving DecidableEq, Repr

/-- `updateAudioRecord` (db.js 270-301). `updateData` lists the keys of the object in
enumeration order with their values, `none` standing for `undefined`. The column names
of the `UPDATE` come from the caller, so its execution is left to the engine `exec`,
which gives the new database and the number of rows changed, or an error. The result
carries the statements handed to the engine. -/
def updateAudioRecord {ε : Type} (exec : Database → Nat → Statement → Except ε (Database × Nat))
    (db : Database) (now : Nat) (id : String) (updateData : List (String × Option SqlValue)) :
    Except ε (Database × RunResult × List Statement) :=
  let defined := updateData.filterMap (fun kv => kv.2.map (fun v => (kv.1, v)))
  let fields := defined.map (fun kv => kv.1 ++ " = ?")
  let values := defined.map (fun kv => kv.2)
  if fields.length = 0 then
    .ok (db, { id := id, changes := 0 }, [])
  else
    let fields := fields ++ ["updated_at = CURRENT_TIMESTAMP"]
    let values := values ++ [SqlValue.text id]
    let statement : Statement :=
      { query := "UPDATE audio_recordings SET " ++ ", ".intercalate fields ++ " WHERE id = ?",
        values := values }
    match exec db now statement with
    | .error e => .error e
    | .ok (db1, changes) => .ok (db1, { id := id, changes := changes }, [statement])

end Lingua

namespace Lingua

/-! ## Lemmas on ordering and reassembly -/

instance : IsTotal AudioChunk chunkIndexLe := ⟨fun a b => Int.le_total a.chunk_index b.chunk_index⟩

instance : IsTrans AudioChunk chunkIndexLe := ⟨fun _ _ _ h1 h2 => Int.le_trans h1 h2⟩

instance : IsTotal (Int × Buffer) viewLe := ⟨fun a b => Int.le_total a.1 b.1⟩

instance : IsTrans (Int × Buffer) viewLe := ⟨fun _ _ _ h1 h2 => Int.le_trans h1 h2⟩

instance : IsAntisymm (Int × Buffer) viewLt :=
  ⟨fun _ _ h1 h2 => absurd (Int.lt_trans h1 h2) (Int.lt_irrefl _)⟩

instance : IsTotal AudioRecording createdAtGe := ⟨fun a b => Nat.le_total b.created_at a.created_at⟩

instance : IsTrans AudioRecording createdAtGe := ⟨fun _ _ _ h1 h2 => Nat.le_trans h2 h1⟩

theorem sorted_viewLt_of_nodup {l : List (Int × Buffer)} (hs : l.Sorted viewLe)
    (hn : (l.map Prod.fst).Nodup) : l.Sorted viewLt := by
  have h1 : (l.map Prod.fst).Sorted (· ≤ ·) := by
    unfold List.Sorted
    rw [List.pairwise_map]
    exact hs
  have h2 := List.Sorted.lt_of_le h1 hn
  unfold List.Sorted at h2
  rw [List.pairwise_map] at h2
  exact h2

/-- A list of pairs with pairwise distinct indices has exactly one arrangement with
increasing indices. -/
theorem eq_of_perm_of_sorted_viewLt {l₁ l₂ : List (Int × Buffer)} (hp : l₁.Perm l₂)
    (h1 : l₁.Sorted viewLt) (h2 : l₂.Sorted viewLt) : l₁ = l₂ :=
  List.eq_of_perm_of_sorted hp h1 h2

theorem insertionSort_eq_of_perm {l sorted : List (Int × Buffer)} (hp : sorted.Perm l)
    (hs : sorted.Sorted viewLt) : List.insertionSort viewLe l = sorted := by
  have hn : (l.map Prod.fst).Nodup := by
    have h1 : (sorted.map Prod.fst).Sorted (· < ·) := by
      unfold List.Sorted
      rw [List.pairwise_map]
      exact hs
    exact (List.Perm.nodup_iff (hp.map Prod.fst)).mp h1.nodup
  have hn2 : ((List.insertionSort viewLe l).map Prod.fst).Nodup :=
    (List.Perm.nodup_iff ((List.perm_insertionSort viewLe l).map Prod.fst)).mpr hn
  exact eq_of_perm_of_sorted_viewLt ((List.perm_insertionSort viewLe l).trans hp.symm)
    (sorted_viewLt_of_nodup (List.sorted_insertionSort viewLe l) hn2) hs

/-- Reassembly as a function of the `(chunk_index, chunk_data)` pairs alone. -/
theorem assembleAudioFromChunks_eq_views (db : Database) (recordingId : String) :
    assembleAudioFromChunks db recordingId =
      ((List.insertionSort viewLe (chunkViews db recordingId)).map Prod.snd).flatten := by
  unfold assembleAudioFromChunks selectChunksOrdered chunkViews
  simp only []
  rw [← List.map_insertionSort chunkIndexLe viewLe (fun row => (row.chunk_index, row.chunk_data))
    _ (fun _ _ _ _ => Iff.rfl)]
  rw [List.map_map]
  rfl

theorem chunkViews_saveAudioChunk (db : Database) (now : Nat) (recordingId : String)
    (chunkIndex : Int) (chunkData : Buffer) :
    chunkViews (saveAudioChunk db now recordingId chunkIndex chunkData).1 recordingId =
      chunkViews db recordingId ++ [(chunkIndex, chunkData)] := by
  simp [chunkViews, saveAudioChunk, List.filter_append]

theorem chunkViews_saveAudioChunk_of_ne (db : Database) (now : Nat) {recordingId other : String}
    (h : other ≠ recordingId) (chunkIndex : Int) (chunkData : Buffer) :
    chunkViews (saveAudioChunk db now other chunkIndex chunkData).1 recordingId =
      chunkViews db recordingId := by
  simp [chunkViews, saveAudioChunk, List.filter_append, h]

theorem chunkViews_saveAudioChunks (clock : Nat → Nat) (recordingId : String)
    (items : List (Int × Buffer)) (k : Nat) (db : Database) :
    chunkViews (saveAudioChunks clock recordingId items k db) recordingId =
      chunkViews db recordingId ++ items := by
  induction items generalizing k db with
  | nil => simp [saveAudioChunks]
  | cons item rest ih =>
    obtain ⟨chunkIndex, chunkData⟩ := item
    simp only [saveAudioChunks]
    rw [ih, chunkViews_saveAudioChunk]
    simp

theorem chunkViews_eq_nil {db : Database} {recordingId : String}
    (h : ∀ row ∈ db.audio_chunks, row.recording_id ≠ recordingId) :
    chunkViews db recordingId = [] := by
  simp only [chunkViews, List.map_eq_nil_iff, List.filter_eq_nil_iff]
  intro row hrow
  simpa using h row hrow

theorem indexed_sorted (pieces : List Buffer) : (indexed pieces).Sorted viewLt := by
  unfold indexed List.Sorted
  rw [List.pairwise_map]
  have h : (pieces.enum.map Prod.fst).Pairwise (· < ·) := by
    rw [List.enum_map_fst]
    exact List.pairwise_lt_range pieces.length
  rw [List.pairwise_map] at h
  exact h.imp (fun hab => by simpa [viewLt] using hab)

theorem indexed_map_snd (pieces : List Buffer) : (indexed pieces).map Prod.snd = pieces := by
  unfold indexed
  rw [List.map_map]
  exact List.enum_map_snd pieces

/-- Reassembly of a recording without chunk rows is the empty buffer. -/
theorem assembleAudioFromChunks_eq_nil {db : Database} {recordingId : String}
    (h : ∀ row ∈ db.audio_chunks, row.recording_id ≠ recordingId) :
    assembleAudioFromChunks db recordingId = [] := by
  rw [assembleAudioFromChunks_eq_views, chunkViews_eq_nil h]
  rfl

/-- Reassembly after the pieces were stored once each, in any order, on a recording
without chunk rows. -/
theorem assemble_saveAudioChunks_of_perm (clock : Nat → Nat) (db : Database)
    (recordingId : String) (pieces : List Buffer) (order : List (Int × Buffer)) (k : Nat)
    (hfresh : ∀ row ∈ db.audio_chunks, row.recording_id ≠ recordingId)
    (horder : order.Perm (indexed pieces)) :
    assembleAudioFromChunks (saveAudioChunks clock recordingId order k db) recordingId =
      pieces.flatten := by
  rw [assembleAudioFromChunks_eq_views, chunkViews_saveAudioChunks, chunkViews_eq_nil hfresh,
    List.nil_append, insertionSort_eq_of_perm horder.symm (indexed_sorted pieces),
    indexed_map_snd]

theorem saveAudioChunks_audio_recordings (clock : Nat → Nat) (recordingId : String)
    (items : List (Int × Buffer)) (k : Nat) (db : Database) :
    (saveAudioChunks clock recordingId items k db).audio_recordings = db.audio_recordings := by
  induction items generalizing k db with
  | nil => rfl
  | cons item rest ih =>
    obtain ⟨chunkIndex, chunkData⟩ := item
    simp only [saveAudioChunks]
    rw [ih]
    rfl

end Lingua

namespace Lingua

/-! ## Reassembly (C2 - C4) -/

/-- C2: `assembleAudioFromChunks(recordingId)` is the concatenation, with nothing in
between, of the `chunk_data` of the rows of `audio_chunks` whose `recording_id` is
`recordingId`, arranged by ascending `chunk_index`; it is the empty buffer when there is
no such row. -/
theorem assembleAudioFromChunks_concat (db : Database) (recordingId : String) :
    (∃ rows : List AudioChunk,
        rows.Perm (db.audio_chunks.filter (fun row => row.recording_id = recordingId)) ∧
        rows.Pairwise (fun a b => a.chunk_index ≤ b.chunk_index) ∧
        assembleAudioFromChunks db recordingId =
          (rows.map (fun row => row.chunk_data)).flatten) ∧
    ((∀ row ∈ db.audio_chunks, row.recording_id ≠ recordingId) →
        assembleAudioFromChunks db recordingId = []) := by
  refine ⟨⟨selectChunksOrdered db recordingId, ?_, ?_, rfl⟩, ?_⟩
  · have h := List.perm_insertionSort chunkIndexLe
      (db.audio_chunks.filter (fun row => row.recording_id == recordingId))
    simpa [selectChunksOrdered] using h
  · exact List.sorted_insertionSort chunkIndexLe _
  · exact fun h => assembleAudioFromChunks_eq_nil h

/-- Witness of C2: two chunks of `"r1"` stored out of order next to a chunk of `"r2"`. -/
theorem assembleAudioFromChunks_concat_witness :
    assembleAudioFromChunks
        (saveAudioChunks (fun k => k) "r2" [(0, [9])] 0 Database.empty) "r1" = [] :=
  (assembleAudioFromChunks_concat
      (saveAudioChunks (fun k => k) "r2" [(0, [9])] 0 Database.empty) "r1").2
    (by decide)

/-- C3: on a recording without stored chunks, once `saveAudioChunk(recordingId, i, p_i)`
has been performed exactly once for each `i` in `0..N-1` (in whatever order),
`assembleAudioFromChunks(recordingId)` is `p_0 ++ p_1 ++ ... ++ p_{N-1}`. -/
theorem assemble_gapless_round_trip (clock : Nat → Nat) (db : Database) (recordingId : String)
    (pieces : List Buffer) (order : List (Int × Buffer)) (k : Nat)
    (hfresh : ∀ row ∈ db.audio_chunks, row.recording_id ≠ recordingId)
    (horder : order.Perm (indexed pieces)) :
    assembleAudioFromChunks (saveAudioChunks clock recordingId order k db) recordingId =
      pieces.flatten :=
  assemble_saveAudioChunks_of_perm clock db recordingId pieces order k hfresh horder

/-- Witness of C3: the pieces `[1, 2]` and `[3]`, stored in the order 1, 0. -/
theorem assemble_gapless_round_trip_witness :
    assembleAudioFromChunks
        (saveAudioChunks (fun k => k) "r1" [(1, [3]), (0, [1, 2])] 0 Database.empty) "r1" =
      [1, 2, 3] :=
  assemble_gapless_round_trip (fun k => k) Database.empty "r1" [[1, 2], [3]]
    [(1, [3]), (0, [1, 2])] 0 (by decide) (by decide)

/-- C4: for chunks of one recording with pairwise distinct indices, stored on a recording
without chunks, any two insertion orders give the same reassembly: the payloads arranged
by increasing `chunk_index`. -/
theorem assemble_insertion_order_irrelevant (clock₁ clock₂ : Nat → Nat) (db : Database)
    (recordingId : String) (order₁ order₂ : List (Int × Buffer)) (k₁ k₂ : Nat)
    (hfresh : ∀ row ∈ db.audio_chunks, row.recording_id ≠ recordingId)
    (hdistinct : (order₁.map Prod.fst).Nodup)
    (hperm : order₁.Perm order₂) :
    assembleAudioFromChunks (saveAudioChunks clock₁ recordingId order₁ k₁ db) recordingId =
        assembleAudioFromChunks (saveAudioChunks clock₂ recordingId order₂ k₂ db) recordingId ∧
    ∃ sorted : List (Int × Buffer),
      sorted.Perm order₁ ∧ sorted.Pairwise (fun a b => a.1 < b.1) ∧
      assembleAudioFromChunks (saveAudioChunks clock₁ recordingId order₁ k₁ db) recordingId =
        (sorted.map Prod.snd).flatten := by
  have hs : (List.insertionSort viewLe order₁).Sorted viewLt :=
    sorted_viewLt_of_nodup (List.sorted_insertionSort viewLe order₁)
      ((List.Perm.nodup_iff ((List.perm_insertionSort viewLe order₁).map Prod.fst)).mpr hdistinct)
  have h1 : assembleAudioFromChunks (saveAudioChunks clock₁ recordingId order₁ k₁ db) recordingId =
      ((List.insertionSort viewLe order₁).map Prod.snd).flatten := by
    rw [assembleAudioFromChunks_eq_views, chunkViews_saveAudioChunks, chunkViews_eq_nil hfresh,
      List.nil_append]
  have h2 : assembleAudioFromChunks (saveAudioChunks clock₂ recordingId order₂ k₂ db) recordingId =
      ((List.insertionSort viewLe order₁).map Prod.snd).flatten := by
    rw [assembleAudioFromChunks_eq_views, chunkViews_saveAudioChunks, chunkViews_eq_nil hfresh,
      List.nil_append,
      insertionSort_eq_of_perm ((List.perm_insertionSort viewLe order₁).trans hperm) hs]
  exact ⟨h1.trans h2.symm, List.insertionSort viewLe order₁,
    List.perm_insertionSort viewLe order₁, hs, h1⟩

/-- Witness of C4: the chunks `(0, [1, 2])`, `(1, [3])`, `(5, [4])` stored in two orders. -/
theorem assemble_insertion_order_irrelevant_witness :
    assembleAudioFromChunks
        (saveAudioChunks (fun k => k) "r1" [(5, [4]), (0, [1, 2]), (1, [3])] 0 Database.empty)
        "r1" =
      assembleAudioFromChunks
        (saveAudioChunks (fun k => 2 * k) "r1" [(1, [3]), (5, [4]), (0, [1, 2])] 7 Database.empty)
        "r1" :=
  (assemble_insertion_order_irrelevant (fun k => k) (fun k => 2 * k) Database.empty "r1"
    [(5, [4]), (0, [1, 2]), (1, [3])] [(1, [3]), (5, [4]), (0, [1, 2])] 0 7
    (by decide) (by decide) (by decide)).1

end Lingua

namespace Lingua

/-! ## Lemmas on the handlers -/

theorem truthyString_some {s : String} (h : s ≠ "") : truthyString (some s) = true := by
  simp [truthyString, h]

theorem any_id_eq_false {l : List AudioRecording} {id : String} (h : ∀ r ∈ l, r.id ≠ id) :
    l.any (fun r => r.id == id) = false := by
  rw [List.any_eq_false]
  intro r hr
  simpa using h r hr

theorem any_id_eq_true {l : List AudioRecording} {id : String} (h : ∃ r ∈ l, r.id = id) :
    l.any (fun r => r.id == id) = true := by
  rw [List.any_eq_true]
  obtain ⟨r, hr, hid⟩ := h
  exact ⟨r, hr, by simpa using hid⟩

/-- Finalize on an identifier without recording: one row is appended and 200 is sent. -/
theorem finalizeChunkedUpload_fresh (db : Database) (now : Nat) (body : FinalizeBody)
    (recordingId : String) (hid : body.recordingId = some recordingId) (hne : recordingId ≠ "")
    (habsent : ∀ r ∈ db.audio_recordings, r.id ≠ recordingId) :
    finalizeChunkedUpload db now body =
      ({ db with audio_recordings := db.audio_recordings ++ [finalizedRow db now body] },
       { status := 200,
         body := .finalized recordingId (finalizedRow db now body).filename now
                   (finalizedRow db now body).file_size }) := by
  simp [finalizeChunkedUpload, saveAudioRecord, finalizedRow, hid, truthyString_some hne,
    any_id_eq_false habsent]

/-- Finalize on an identifier that has a recording: nothing changes and 500 is sent. -/
theorem finalizeChunkedUpload_conflict (db : Database) (now : Nat) (body : FinalizeBody)
    (recordingId : String) (hid : body.recordingId = some recordingId) (hne : recordingId ≠ "")
    (hpresent : ∃ r ∈ db.audio_recordings, r.id = recordingId) :
    finalizeChunkedUpload db now body =
      (db, { status := 500, body := .error "Erreur serveur lors de la finalisation" }) := by
  simp [finalizeChunkedUpload, saveAudioRecord, hid, truthyString_some hne,
    any_id_eq_true hpresent]

/-- Whatever the body, finalize leaves the recordings alone or appends one row, and it
never touches the chunks. -/
theorem finalizeChunkedUpload_cases (db : Database) (now : Nat) (body : FinalizeBody) :
    ((finalizeChunkedUpload db now body).1 = db ∧
        (finalizeChunkedUpload db now body).2.status ≠ 200) ∨
    ((finalizeChunkedUpload db now body).1 =
        { db with audio_recordings := db.audio_recordings ++ [finalizedRow db now body] } ∧
      (finalizeChunkedUpload db now body).2.status = 200 ∧
      truthyString body.recordingId = true ∧
      ∀ r ∈ db.audio_recordings, r.id ≠ body.recordingId.getD "") := by
  unfold finalizeChunkedUpload
  by_cases ht : truthyString body.recordingId = true
  · by_cases hany : db.audio_recordings.any (fun r => r.id == body.recordingId.getD "") = true
    · left
      simp [ht, saveAudioRecord, hany]
    · right
      have hall : ∀ r ∈ db.audio_recordings, r.id ≠ body.recordingId.getD "" := by
        intro r hr hEq
        exact hany (any_id_eq_true ⟨r, hr, hEq⟩)
      simp only [Bool.not_eq_true] at hany
      simp [ht, saveAudioRecord, hany, finalizedRow]
      exact hall
  · left
    simp [ht]

theorem uploadChunk_audio_recordings (db : Database) (now : Nat) (body : UploadChunkBody) :
    (uploadChunk db now body).1.audio_recordings = db.audio_recordings := by
  unfold uploadChunk
  split <;> rfl

/-- The recordings after `DELETE /api/audio/:id`: the rows with another id. -/
theorem deleteAudio_audio_recordings (db : Database) (id : String) :
    (deleteAudio db id).1.audio_recordings = db.audio_recordings.filter (fun r => r.id != id) := by
  unfold deleteAudio getAudioRecordById
  cases hfind : db.audio_recordings.find? (fun r => r.id == id) with
  | none =>
    simp only [Option.map_none']
    symm
    rw [List.filter_eq_self]
    intro r hr
    have := List.find?_eq_none.mp hfind r hr
    simpa using this
  | some r => simp [deleteAudioRecord]

theorem find_filter_ne (l : List AudioRecording) {id other : String} (h : other ≠ id) :
    (l.filter (fun r => r.id != other)).find? (fun r => r.id == id) =
      l.find? (fun r => r.id == id) := by
  induction l with
  | nil => rfl
  | cons a rest ih =>
    by_cases ha : a.id = id
    · have hao : a.id ≠ other := fun hEq => h (hEq.symm.trans ha)
      simp [List.filter_cons, ha, hao, Ne.symm h]
    · by_cases hao : a.id = other
      · simp [List.filter_cons, ha, hao, ih, h]
      · simp [List.filter_cons, ha, hao, ih]

/-- One request other than the deletion of `id` keeps the rows of `id` in place: a row of
that id stays in the table and the first row with that id stays the same. -/
theorem handle_keeps_recording (db : Database) (now : Nat) (req : Request) (id : String)
    (hreq : req ≠ .deleteAudio id) (first : AudioRecording)
    (hfirst : db.audio_recordings.find? (fun r => r.id == id) = some first) :
    ((handle db now req).1.audio_recordings.find? (fun r => r.id == id) = some first) ∧
    ∀ r ∈ db.audio_recordings, r.id = id → r ∈ (handle db now req).1.audio_recordings := by
  cases req with
  | uploadChunk body =>
    simp only [handle, uploadChunk_audio_recordings]
    exact ⟨hfirst, fun r hr _ => hr⟩
  | finalizeChunkedUpload body =>
    simp only [handle]
    rcases finalizeChunkedUpload_cases db now body with ⟨h, _⟩ | ⟨h, _⟩
    · rw [h]
      exact ⟨hfirst, fun r hr _ => hr⟩
    · rw [h]
      refine ⟨?_, fun r hr _ => List.mem_append_left _ hr⟩
      simp [List.find?_append, hfirst]
  | listAudio => exact ⟨hfirst, fun r hr _ => hr⟩
  | getAudio other =>
    simp only [handle, getAudio]
    split <;> exact ⟨hfirst, fun r hr _ => hr⟩
  | deleteAudio other =>
    have hne : other ≠ id := fun hEq => hreq (by rw [hEq])
    simp only [handle, deleteAudio_audio_recordings]
    refine ⟨by rw [find_filter_ne _ hne]; exact hfirst, ?_⟩
    intro r hr hid
    rw [List.mem_filter]
    refine ⟨hr, ?_⟩
    have : r.id ≠ other := fun hEq => hne (hEq.symm.trans hid)
    simpa using this
  | downloadAudio other =>
    simp only [handle, downloadAudio]
    split
    · exact ⟨hfirst, fun r hr _ => hr⟩
    · split <;> exact ⟨hfirst, fun r hr _ => hr⟩

/-- A sequence of requests without deletion of `id` keeps the rows of `id` in place. -/
theorem run_keeps_recording (reqs : List (Nat × Request)) (db : Database) (id : String)
    (hreqs : ∀ item ∈ reqs, item.2 ≠ Request.deleteAudio id) (first : AudioRecording)
    (hfirst : db.audio_recordings.find? (fun r => r.id == id) = some first) :
    ((run db reqs).audio_recordings.find? (fun r => r.id == id) = some first) ∧
    ∀ r ∈ db.audio_recordings, r.id = id → r ∈ (run db reqs).audio_recordings := by
  induction reqs generalizing db with
  | nil => exact ⟨hfirst, fun r hr _ => hr⟩
  | cons item rest ih =>
    obtain ⟨now, req⟩ := item
    have hstep := handle_keeps_recording db now req id
      (hreqs (now, req) (List.mem_cons_self _ _)) first hfirst
    have hrest := ih (handle db now req).1
      (fun item hitem => hreqs item (List.mem_cons_of_mem _ hitem)) hstep.1
    simp only [run]
    exact ⟨hrest.1, fun r hr hid => hrest.2 r (hstep.2 r hr hid) hid⟩

theorem find_isSome_of_mem {l : List AudioRecording} {r : AudioRecording} (hr : r ∈ l) :
    ∃ first, l.find? (fun x => x.id == r.id) = some first := by
  cases h : l.find? (fun x => x.id == r.id) with
  | none =>
    have := List.find?_eq_none.mp h r hr
    simp at this
  | some first => exact ⟨first, rfl⟩

end Lingua

namespace Lingua

theorem length_assembleAudioFromChunks (db : Database) (recordingId : String) :
    (assembleAudioFromChunks db recordingId).length = storedChunkBytes db recordingId := by
  unfold assembleAudioFromChunks storedChunkBytes selectChunksOrdered
  simp only [List.length_flatten, List.map_map]
  exact ((List.perm_insertionSort chunkIndexLe _).map _).sum_eq

/-- One request that states sizes truthfully keeps `file_size` equal to the payload
length on every row. -/
theorem handle_keeps_file_size (db : Database) (now : Nat) (req : Request)
    (hreq : totalSizeAgrees db req)
    (hinv : ∀ r ∈ db.audio_recordings, r.file_size = (r.audio_data.length : Int)) :
    ∀ r ∈ (handle db now req).1.audio_recordings, r.file_size = (r.audio_data.length : Int) := by
  cases req with
  | uploadChunk body =>
    simp only [handle, uploadChunk_audio_recordings]
    exact hinv
  | finalizeChunkedUpload body =>
    simp only [handle]
    rcases finalizeChunkedUpload_cases db now body with ⟨h, _⟩ | ⟨h, _⟩
    · rw [h]
      exact hinv
    · rw [h]
      intro r hr
      rcases List.mem_append.mp hr with hr | hr
      · exact hinv r hr
      · rw [List.mem_singleton.mp hr]
        rcases hreq with hfalsy | hsame
        · simp [finalizedRow, orInt, hfalsy]
        · simp only [finalizedRow, orInt, hsame]
          split <;> rfl
  | listAudio => exact hinv
  | getAudio other =>
    simp only [handle, getAudio]
    split <;> exact hinv
  | deleteAudio other =>
    simp only [handle, deleteAudio_audio_recordings]
    intro r hr
    exact hinv r (List.mem_filter.mp hr).1
  | downloadAudio other =>
    simp only [handle, downloadAudio]
    split
    · exact hinv
    · split <;> exact hinv

theorem run_keeps_file_size (reqs : List (Nat × Request)) (db : Database)
    (hreqs : allSizesAgree db reqs)
    (hinv : ∀ r ∈ db.audio_recordings, r.file_size = (r.audio_data.length : Int)) :
    ∀ r ∈ (run db reqs).audio_recordings, r.file_size = (r.audio_data.length : Int) := by
  induction reqs generalizing db with
  | nil => exact hinv
  | cons item rest ih =>
    obtain ⟨now, req⟩ := item
    exact ih (handle db now req).1 hreqs.2 (handle_keeps_file_size db now req hreqs.1 hinv)

/-! ## Finalization and the recording registry (C5 - C10) -/

/-- C5: for a non-empty `recordingId` without recording, finalize answers 200; after it,
as long as no request deletes that recording, every further finalize of the same
`recordingId` answers 500, `saveAudioRecord` being rejected by the primary key on `id`. -/
theorem finalize_at_most_once (db : Database) (now : Nat) (body : FinalizeBody)
    (recordingId : String) (hid : body.recordingId = some recordingId) (hne : recordingId ≠ "")
    (habsent : ∀ r ∈ db.audio_recordings, r.id ≠ recordingId) :
    (finalizeChunkedUpload db now body).2.status = 200 ∧
    ∀ (reqs : List (Nat × Request)) (now2 : Nat) (body2 : FinalizeBody),
      (∀ item ∈ reqs, item.2 ≠ Request.deleteAudio recordingId) →
      body2.recordingId = some recordingId →
      (∀ record : AudioRecordInput, record.id = recordingId →
        saveAudioRecord (run (finalizeChunkedUpload db now body).1 reqs) now2 record =
          .error .constraintPrimaryKey) ∧
      (finalizeChunkedUpload (run (finalizeChunkedUpload db now body).1 reqs) now2 body2).2.status
        = 500 := by
  rw [finalizeChunkedUpload_fresh db now body recordingId hid hne habsent]
  refine ⟨rfl, ?_⟩
  intro reqs now2 body2 hreqs hid2
  have hrow : finalizedRow db now body ∈ db.audio_recordings ++ [finalizedRow db now body] :=
    List.mem_append_right _ (List.mem_singleton_self _)
  have hrowid : (finalizedRow db now body).id = recordingId := by simp [finalizedRow, hid]
  obtain ⟨first, hfirst⟩ := find_isSome_of_mem hrow
  rw [hrowid] at hfirst
  have hkept := (run_keeps_recording reqs
    { db with audio_recordings := db.audio_recordings ++ [finalizedRow db now body] }
    recordingId hreqs first hfirst).2 _ hrow hrowid
  have hpresent : ∃ r ∈ (run { db with audio_recordings :=
      db.audio_recordings ++ [finalizedRow db now body] } reqs).audio_recordings,
      r.id = recordingId := ⟨_, hkept, hrowid⟩
  refine ⟨?_, ?_⟩
  · intro record hrec
    simp [saveAudioRecord, hrec, any_id_eq_true hpresent]
  · rw [finalizeChunkedUpload_conflict _ now2 body2 recordingId hid2 hne hpresent]

/-- Witness of C5: the first finalize of `"r1"` on the empty database. -/
theorem finalize_at_most_once_witness :
    (finalizeChunkedUpload Database.empty 7
      { recordingId := some "r1", filename := some "a.m4a", originalName := none,
        mimeType := none, totalSize := none }).2.status = 200 :=
  (finalize_at_most_once Database.empty 7
    { recordingId := some "r1", filename := some "a.m4a", originalName := none,
      mimeType := none, totalSize := none } "r1" rfl (by decide) (by decide)).1

/-- C6 as stated fails: one finalize request with `totalSize = 999` on the empty database
stores a row whose `file_size` is 999 while its `audio_data` is empty. -/
theorem file_size_eq_length_fails :
    ¬ ∀ reqs : List (Nat × Request), ∀ r ∈ (run Database.empty reqs).audio_recordings,
        r.file_size = (r.audio_data.length : Int) := by
  intro h
  have h1 := h [(0, .finalizeChunkedUpload
      { recordingId := some "r1", filename := some "a.m4a", originalName := some "a.m4a",
        mimeType := some "audio/mp4", totalSize := some 999 })]
    { id := "r1", filename := "lingua_a.m4a", original_name := "a.m4a", audio_data := [],
      file_size := 999, mime_type := "audio/mp4", upload_date := 0, created_at := 0,
      updated_at := 0 } (by decide)
  exact absurd h1 (by decide)

/-- C6, amended: in every state reached from empty tables by requests whose finalize
bodies carry no `totalSize`, a zero `totalSize`, or the length of the reassembled
payload, each row of `audio_recordings` has `file_size` equal to the byte length of its
`audio_data`. -/
theorem file_size_eq_length_of_truthful_sizes (reqs : List (Nat × Request))
    (hreqs : allSizesAgree Database.empty reqs) :
    ∀ r ∈ (run Database.empty reqs).audio_recordings,
      r.file_size = (r.audio_data.length : Int) :=
  run_keeps_file_size reqs Database.empty hreqs (by simp [Database.empty])

/-- Witness of C6 amended: a chunk of three bytes, a finalize stating `totalSize = 3`, a
finalize of another identifier without `totalSize`, and a deletion. -/
theorem file_size_eq_length_of_truthful_sizes_witness :
    (run Database.empty
        [(1, .uploadChunk { recordingId := some "r1", chunkIndex := some 0, chunkData := some "AAAA" }),
         (2, .finalizeChunkedUpload
            { recordingId := some "r1", filename := some "a.m4a", originalName := none,
              mimeType := none, totalSize := some 3 }),
         (3, .finalizeChunkedUpload
            { recordingId := some "r2", filename := some "b.m4a", originalName := none,
              mimeType := none, totalSize := none }),
         (4, .deleteAudio "r2")]).audio_recordings.all
      (fun r => decide (r.file_size = (r.audio_data.length : Int))) = true :=
  List.all_eq_true.mpr (fun r hr => decide_eq_true
    (file_size_eq_length_of_truthful_sizes
      [(1, .uploadChunk { recordingId := some "r1", chunkIndex := some 0, chunkData := some "AAAA" }),
       (2, .finalizeChunkedUpload
          { recordingId := some "r1", filename := some "a.m4a", originalName := none,
            mimeType := none, totalSize := some 3 }),
       (3, .finalizeChunkedUpload
          { recordingId := some "r2", filename := some "b.m4a", originalName := none,
            mimeType := none, totalSize := none }),
       (4, .deleteAudio "r2")]
      ⟨trivial, Or.inr (by decide), Or.inl (by decide), trivial, trivial⟩ r hr))

/-- C7: for a non-empty `recordingId` without recording, whatever `audio_chunks` holds
(gaps, duplicate or negative indices, nothing at all) and whatever `totalSize` is,
finalize answers 200, stores as `audio_data` exactly what `assembleAudioFromChunks`
yields on the chunks present, and leaves the chunks as they are. -/
theorem finalize_no_integrity_validation (db : Database) (now : Nat) (body : FinalizeBody)
    (recordingId : String) (hid : body.recordingId = some recordingId) (hne : recordingId ≠ "")
    (habsent : ∀ r ∈ db.audio_recordings, r.id ≠ recordingId) :
    (finalizeChunkedUpload db now body).2.status = 200 ∧
    getAudioData (finalizeChunkedUpload db now body).1 recordingId =
      some (assembleAudioFromChunks db recordingId) ∧
    (finalizeChunkedUpload db now body).1.audio_chunks = db.audio_chunks := by
  rw [finalizeChunkedUpload_fresh db now body recordingId hid hne habsent]
  refine ⟨rfl, ?_, rfl⟩
  have hnone : db.audio_recordings.find? (fun r => r.id == recordingId) = none := by
    rw [List.find?_eq_none]
    intro r hr
    simpa using habsent r hr
  simp [getAudioData, List.find?_append, hnone, finalizedRow, hid]

/-- Witness of C7: chunks of `"r1"` at the indices 4, -2 and 4 (a gap, a negative index
and a duplicate), finalized with `totalSize = 12345`. -/
theorem finalize_no_integrity_validation_witness :
    getAudioData
        (finalizeChunkedUpload
          (saveAudioChunks (fun k => k) "r1" [(4, [1]), (-2, [2, 3]), (4, [5])] 0 Database.empty)
          9 { recordingId := some "r1", filename := some "a.m4a", originalName := none,
              mimeType := none, totalSize := some 12345 }).1 "r1" =
      some [2, 3, 1, 5] :=
  (finalize_no_integrity_validation
    (saveAudioChunks (fun k => k) "r1" [(4, [1]), (-2, [2, 3]), (4, [5])] 0 Database.empty)
    9 { recordingId := some "r1", filename := some "a.m4a", originalName := none,
        mimeType := none, totalSize := some 12345 } "r1" rfl (by decide) (by decide)).2.1

end Lingua

namespace Lingua

theorem find_id_eq_none {l : List AudioRecording} {id : String} (h : ∀ r ∈ l, r.id ≠ id) :
    l.find? (fun r => r.id == id) = none := by
  rw [List.find?_eq_none]
  intro r hr
  simpa using h r hr

/-- C8: for a non-empty `recordingId` with no row in `audio_chunks` and none in
`audio_recordings`, finalize without `totalSize` answers 200 with `data.size = 0` and
creates a recording whose payload is empty and whose `file_size` is 0. -/
theorem finalize_zero_chunks (db : Database) (now : Nat) (body : FinalizeBody)
    (recordingId : String) (hid : body.recordingId = some recordingId) (hne : recordingId ≠ "")
    (hsize : body.totalSize = none)
    (hnochunk : ∀ row ∈ db.audio_chunks, row.recording_id ≠ recordingId)
    (habsent : ∀ r ∈ db.audio_recordings, r.id ≠ recordingId) :
    (finalizeChunkedUpload db now body).2.status = 200 ∧
    (finalizeChunkedUpload db now body).2.dataSize = some 0 ∧
    getAudioData (finalizeChunkedUpload db now body).1 recordingId = some [] ∧
    (getAudioRecordById (finalizeChunkedUpload db now body).1 recordingId).map
      (fun row => row.file_size) = some 0 := by
  have hempty : assembleAudioFromChunks db recordingId = [] :=
    assembleAudioFromChunks_eq_nil hnochunk
  rw [finalizeChunkedUpload_fresh db now body recordingId hid hne habsent]
  simp [Response.dataSize, getAudioData, getAudioRecordById, List.find?_append,
    find_id_eq_none habsent, finalizedRow, hid, hsize, hempty, orInt, truthyInt,
    AudioRecording.summary]

/-- Witness of C8: the identifier `"r1"` on a database that only holds a chunk of `"r2"`. -/
theorem finalize_zero_chunks_witness :
    getAudioData
        (finalizeChunkedUpload
          (saveAudioChunks (fun k => k) "r2" [(0, [1])] 0 Database.empty)
          9 { recordingId := some "r1", filename := none, originalName := none,
              mimeType := none, totalSize := none }).1 "r1" = some [] :=
  (finalize_zero_chunks
    (saveAudioChunks (fun k => k) "r2" [(0, [1])] 0 Database.empty)
    9 { recordingId := some "r1", filename := none, originalName := none,
        mimeType := none, totalSize := none } "r1" rfl (by decide) rfl
    (by decide) (by decide)).2.2.1

/-- C9: when finalize is called without `totalSize` and stores a recording (it answers
200), the stored `file_size`, the field `data.size` of the response and the byte length
of the stored payload all equal the sum of the byte lengths of the chunks stored for
`recordingId`. -/
theorem finalize_size_defaults_to_length (db : Database) (now : Nat) (body : FinalizeBody)
    (recordingId : String) (hid : body.recordingId = some recordingId)
    (hsize : body.totalSize = none)
    (hok : (finalizeChunkedUpload db now body).2.status = 200) :
    (getAudioRecordById (finalizeChunkedUpload db now body).1 recordingId).map
      (fun row => row.file_size) = some (storedChunkBytes db recordingId : Int) ∧
    (finalizeChunkedUpload db now body).2.dataSize = some (storedChunkBytes db recordingId : Int) ∧
    (getAudioData (finalizeChunkedUpload db now body).1 recordingId).map List.length =
      some (storedChunkBytes db recordingId) := by
  rcases finalizeChunkedUpload_cases db now body with ⟨_, hno⟩ | ⟨_, _, htruthy, habsent⟩
  · exact absurd hok hno
  · rw [hid] at htruthy habsent
    simp only [Option.getD_some] at habsent
    have hne : recordingId ≠ "" := by simpa [truthyString] using htruthy
    rw [finalizeChunkedUpload_fresh db now body recordingId hid hne habsent]
    simp [Response.dataSize, getAudioData, getAudioRecordById, List.find?_append,
      find_id_eq_none habsent, finalizedRow, hid, hsize, orInt, truthyInt,
      AudioRecording.summary, length_assembleAudioFromChunks]

/-- Witness of C9: chunks of 10, 10 and 5 bytes at the indices 0, 1, 2 of `"r1"`: the
response carries `data.size = 25`. -/
theorem finalize_size_defaults_to_length_witness :
    (finalizeChunkedUpload
        (saveAudioChunks (fun k => k) "r1"
          [(0, List.replicate 10 0), (1, List.replicate 10 0), (2, List.replicate 5 0)]
          0 Database.empty)
        9 { recordingId := some "r1", filename := none, originalName := none,
            mimeType := none, totalSize := none }).2.dataSize = some 25 :=
  (finalize_size_defaults_to_length
    (saveAudioChunks (fun k => k) "r1"
      [(0, List.replicate 10 0), (1, List.replicate 10 0), (2, List.replicate 5 0)]
      0 Database.empty)
    9 { recordingId := some "r1", filename := none, originalName := none,
        mimeType := none, totalSize := none } "r1" rfl rfl (by decide)).2.1

/-- C10: a row of `audio_recordings` is left as it is by every later sequence of requests
(chunk uploads and finalizes of any identifier, successful or not, reads, deletions of
other identifiers) that contains no deletion of its id: the row stays in the table and
the payload served for its id stays the same; the deletion of its id removes it. -/
theorem recording_payload_immutable (db : Database) (r : AudioRecording)
    (hr : r ∈ db.audio_recordings) (reqs : List (Nat × Request))
    (hreqs : ∀ item ∈ reqs, item.2 ≠ Request.deleteAudio r.id) :
    r ∈ (run db reqs).audio_recordings ∧
    getAudioData (run db reqs) r.id = getAudioData db r.id ∧
    (getAudioData db r.id).isSome = true ∧
    getAudioData (deleteAudio (run db reqs) r.id).1 r.id = none := by
  obtain ⟨first, hfirst⟩ := find_isSome_of_mem hr
  have hkept := run_keeps_recording reqs db r.id hreqs first hfirst
  refine ⟨hkept.2 r hr rfl, ?_, ?_, ?_⟩
  · simp only [getAudioData, hkept.1, hfirst]
  · simp [getAudioData, hfirst]
  · simp only [getAudioData, deleteAudio_audio_recordings]
    rw [find_id_eq_none]
    · rfl
    · intro x hx
      simpa using (List.mem_filter.mp hx).2

/-- Witness of C10: the recording `"r1"` across a chunk upload for `"r1"`, a second
finalize of `"r1"`, a finalize of `"r2"` and the deletion of `"r2"`. -/
theorem recording_payload_immutable_witness :
    getAudioData
        (run
          { Database.empty with
            audio_recordings :=
              [{ id := "r1", filename := "lingua_a.m4a", original_name := "a.m4a",
                 audio_data := [1, 2, 3], file_size := 3, mime_type := "audio/mp4",
                 upload_date := 0, created_at := 0, updated_at := 0 }] }
          [(1, .uploadChunk { recordingId := some "r1", chunkIndex := some 0, chunkData := some "AAAA" }),
           (2, .finalizeChunkedUpload
              { recordingId := some "r1", filename := some "a.m4a", originalName := none,
                mimeType := none, totalSize := none }),
           (3, .finalizeChunkedUpload
              { recordingId := some "r2", filename := some "b.m4a", originalName := none,
                mimeType := none, totalSize := none }),
           (4, .deleteAudio "r2")]) "r1" =
      getAudioData
        { Database.empty with
          audio_recordings :=
            [{ id := "r1", filename := "lingua_a.m4a", original_name := "a.m4a",
               audio_data := [1, 2, 3], file_size := 3, mime_type := "audio/mp4",
               upload_date := 0, created_at := 0, updated_at := 0 }] } "r1" :=
  (recording_payload_immutable
    { Database.empty with
      audio_recordings :=
        [{ id := "r1", filename := "lingua_a.m4a", original_name := "a.m4a",
           audio_data := [1, 2, 3], file_size := 3, mime_type := "audio/mp4",
           upload_date := 0, created_at := 0, updated_at := 0 }] }
    { id := "r1", filename := "lingua_a.m4a", original_name := "a.m4a",
      audio_data := [1, 2, 3], file_size := 3, mime_type := "audio/mp4",
      upload_date := 0, created_at := 0, updated_at := 0 }
    (List.mem_singleton_self _)
    [(1, .uploadChunk { recordingId := some "r1", chunkIndex := some 0, chunkData := some "AAAA" }),
     (2, .finalizeChunkedUpload
        { recordingId := some "r1", filename := some "a.m4a", originalName := none,
          mimeType := none, totalSize := none }),
     (3, .finalizeChunkedUpload
        { recordingId := some "r2", filename := some "b.m4a", originalName := none,
          mimeType := none, totalSize := none }),
     (4, .deleteAudio "r2")]
    (by decide)).2.1

end Lingua

namespace Lingua

/-! ## The client driver against the server (C1) -/

theorem length_decodeSextets (l : List Nat) : (decodeSextets l).length = 3 * l.length / 4 := by
  induction l using decodeSextets.induct with
  | case1 a b c d rest ih =>
    simp only [decodeSextets, List.length_cons, ih]
    omega
  | case2 a b c => simp [decodeSextets]
  | case3 a b => simp [decodeSextets]
  | case4 a => simp [decodeSextets]
  | case5 => simp [decodeSextets]

theorem length_base64Sextets_le (text : List Char) :
    (base64Sextets text).length ≤ text.length := by
  unfold base64Sextets
  exact (List.length_filterMap_le _ _).trans (List.takeWhile_sublist _).length_le

/-- A text of `n` characters decodes to at most `3 * n / 4` bytes. -/
theorem length_bufferFromBase64_le (text : String) :
    (bufferFromBase64 text).length ≤ 3 * text.length / 4 := by
  unfold bufferFromBase64
  rw [length_decodeSextets]
  exact Nat.div_le_div_right (Nat.mul_le_mul_left 3 (length_base64Sextets_le text.data))

theorem length_base64Encode (bytes : List Byte) :
    (base64Encode bytes).length = 4 * ((bytes.length + 2) / 3) := by
  induction bytes using base64Encode.induct with
  | case1 a b c rest ih =>
    simp only [base64Encode, List.length_cons, ih]
    omega
  | case2 a b => simp [base64Encode]
  | case3 a => simp [base64Encode]
  | case4 => simp [base64Encode]

theorem base64ChunkSize_eq : base64ChunkSize = 87381 := by decide

theorem length_chunkSlice (audioBase64 : String) (i : Nat) :
    (chunkSlice audioBase64 i).length =
      min (min (i * base64ChunkSize + base64ChunkSize) audioBase64.length - i * base64ChunkSize)
        (audioBase64.length - i * base64ChunkSize) := by
  simp only [chunkSlice, slice, String.length, List.length_take, List.length_drop]

theorem ne_empty_of_length_pos {text : String} (h : 0 < text.length) : text ≠ "" := by
  intro hEq
  rw [hEq] at h
  exact absurd h (by decide)

/-- A chunk request with non-empty identifier and non-empty text is stored. -/
theorem uploadChunk_ok (db : Database) (now : Nat) (recordingId : String) (chunkIndex : Int)
    (chunkData : String) (hid : recordingId ≠ "") (hdata : chunkData ≠ "") :
    uploadChunk db now
        { recordingId := some recordingId, chunkIndex := some chunkIndex,
          chunkData := some chunkData } =
      ((saveAudioChunk db now recordingId chunkIndex (bufferFromBase64 chunkData)).1,
       { status := 200,
         body := .chunkSaved
           { chunkIndex := chunkIndex, size := (bufferFromBase64 chunkData).length } }) := by
  simp [uploadChunk, truthyString_some hid, truthyString_some hdata, saveAudioChunk]

end Lingua

namespace Lingua

/-- The stored payload after a finalize that creates the recording. -/
theorem getAudioData_finalize_fresh (db : Database) (now : Nat) (body : FinalizeBody)
    (recordingId : String) (hid : body.recordingId = some recordingId) (hne : recordingId ≠ "")
    (habsent : ∀ r ∈ db.audio_recordings, r.id ≠ recordingId) :
    getAudioData (finalizeChunkedUpload db now body).1 recordingId =
      some (assembleAudioFromChunks db recordingId) := by
  rw [finalizeChunkedUpload_fresh db now body recordingId hid hne habsent]
  simp [getAudioData, List.find?_append, find_id_eq_none habsent, finalizedRow, hid]

/-- A file of 65538 bytes has a Base64 text of 87384 characters, which the driver cuts
into a slice of 87381 characters and a slice of 3; both are stored, the upload is
reported as successful, and the recording holds the two slices decoded one by one. -/
theorem uploadToBackend_two_slices (clock : Nat → Nat) (recordingId filename : String)
    (file : Buffer) (db : Database) (hfile : file.length = 65538) (hid : recordingId ≠ "")
    (hnochunk : ∀ row ∈ db.audio_chunks, row.recording_id ≠ recordingId)
    (habsent : ∀ r ∈ db.audio_recordings, r.id ≠ recordingId) :
    (uploadToBackend clock recordingId filename file db).2 = .uploaded ∧
    getAudioData (uploadToBackend clock recordingId filename file db).1 recordingId =
      some (bufferFromBase64 (chunkSlice (String.mk (base64Encode file)) 0) ++
            bufferFromBase64 (chunkSlice (String.mk (base64Encode file)) 1)) ∧
    (bufferFromBase64 (chunkSlice (String.mk (base64Encode file)) 0) ++
      bufferFromBase64 (chunkSlice (String.mk (base64Encode file)) 1)).length ≤ 65537 := by
  have hlen : (String.mk (base64Encode file)).length = 87384 := by
    simp only [String.length, length_base64Encode, hfile]
  have htotal : totalChunks (String.mk (base64Encode file)) = 2 := by
    unfold totalChunks
    rw [hlen, base64ChunkSize_eq]
  have h0 : (chunkSlice (String.mk (base64Encode file)) 0).length = 87381 := by
    rw [length_chunkSlice, hlen, base64ChunkSize_eq]
    omega
  have h1 : (chunkSlice (String.mk (base64Encode file)) 1).length = 3 := by
    rw [length_chunkSlice, hlen, base64ChunkSize_eq]
    omega
  have hne0 : chunkSlice (String.mk (base64Encode file)) 0 ≠ "" :=
    ne_empty_of_length_pos (by omega)
  have hne1 : chunkSlice (String.mk (base64Encode file)) 1 ≠ "" :=
    ne_empty_of_length_pos (by omega)
  have hloop : uploadChunksFrom clock recordingId (String.mk (base64Encode file)) 2 0 db =
      (saveAudioChunks clock recordingId
        (indexed [bufferFromBase64 (chunkSlice (String.mk (base64Encode file)) 0),
                  bufferFromBase64 (chunkSlice (String.mk (base64Encode file)) 1)]) 0 db,
       none) := by
    simp only [uploadChunksFrom, Nat.cast_zero, Nat.cast_add, Nat.cast_one, zero_add]
    rw [uploadChunk_ok db _ recordingId 0 _ hid hne0]
    simp only [Response.success, Bool.not_true, Bool.false_eq_true, if_false]
    rw [uploadChunk_ok _ _ recordingId 1 _ hid hne1]
    simp only [Response.success, Bool.not_true, Bool.false_eq_true, if_false, indexed,
      List.enum, List.enumFrom, List.map, saveAudioChunks, Nat.cast_zero, Nat.cast_one,
      zero_add]
  have hfreshrec : ∀ r ∈ (saveAudioChunks clock recordingId
      (indexed [bufferFromBase64 (chunkSlice (String.mk (base64Encode file)) 0),
                bufferFromBase64 (chunkSlice (String.mk (base64Encode file)) 1)]) 0
      db).audio_recordings, r.id ≠ recordingId := by
    rw [saveAudioChunks_audio_recordings]
    exact habsent
  have hstored := getAudioData_finalize_fresh _ (clock 2)
    { recordingId := some recordingId, filename := some filename,
      originalName := some filename, mimeType := some "audio/mp4",
      totalSize := some (file.length : Int) } recordingId rfl hid hfreshrec
  rw [assemble_saveAudioChunks_of_perm clock db recordingId _ _ 0 hnochunk (List.Perm.refl _)]
    at hstored
  have hfin := finalizeChunkedUpload_fresh _ (clock 2)
    { recordingId := some recordingId, filename := some filename,
      originalName := some filename, mimeType := some "audio/mp4",
      totalSize := some (file.length : Int) } recordingId rfl hid hfreshrec
  refine ⟨?_, ?_, ?_⟩
  · unfold uploadToBackend
    simp only [htotal]
    rw [hloop]
    simp only []
    rw [hfin]
    simp only [Response.success, Bool.not_true, Bool.false_eq_true, if_false]
  · unfold uploadToBackend
    simp only [htotal]
    rw [hloop]
    simp only []
    rw [hfin] at hstored ⊢
    simp only [Response.success, Bool.not_true, Bool.false_eq_true, if_false]
    rw [hstored]
    simp only [List.flatten, List.append_nil]
  · have b0 := length_bufferFromBase64_le (chunkSlice (String.mk (base64Encode file)) 0)
    have b1 := length_bufferFromBase64_le (chunkSlice (String.mk (base64Encode file)) 1)
    rw [h0] at b0
    rw [h1] at b1
    rw [List.length_append]
    have c0 : 3 * 87381 / 4 = 65535 := by norm_num
    have c1 : 3 * 3 / 4 = 2 := by norm_num
    rw [c0] at b0
    rw [c1] at b1
    exact Nat.add_le_add b0 b1

/-- C1, at a failing input: for the file made of 65538 zero bytes, uploaded by
`uploadToBackend` under the identifier `"r1"` to a server with empty tables, every chunk
and the finalize are accepted, and the `audio_data` stored for the recording differs
from the file: it has at most 65537 bytes. -/
theorem uploadToBackend_round_trip_fails (clock : Nat → Nat) (filename : String) :
    (uploadToBackend clock "r1" filename (List.replicate 65538 0) Database.empty).2 = .uploaded ∧
    (∃ stored : Buffer,
      getAudioData (uploadToBackend clock "r1" filename (List.replicate 65538 0)
        Database.empty).1 "r1" = some stored ∧
      stored.length ≤ 65537) ∧
    getAudioData (uploadToBackend clock "r1" filename (List.replicate 65538 0)
        Database.empty).1 "r1" ≠ some (List.replicate 65538 0) := by
  obtain ⟨hout, hdata, hbound⟩ :=
    uploadToBackend_two_slices clock "r1" filename (List.replicate 65538 0)
      Database.empty (List.length_replicate _ _) (by decide)
      (fun _ hrow => absurd hrow (List.not_mem_nil _))
      (fun _ hr => absurd hr (List.not_mem_nil _))
  refine ⟨hout, ⟨_, hdata, hbound⟩, ?_⟩
  rw [hdata]
  intro hEq
  have hlen := congrArg List.length (Option.some.inj hEq)
  rw [List.length_replicate] at hlen
  rw [hlen] at hbound
  exact absurd hbound (by norm_num)

end Lingua

namespace Lingua

/-! ## Request validation and the chunk table (C11, C12, C15) -/

theorem truthyString_eq_false_iff (a : Option String) :
    truthyString a = false ↔ a = none ∨ a = some "" := by
  cases a with
  | none => simp [truthyString]
  | some s => simp [truthyString]

/-- What `upload-chunk` does, by cases on its guard. -/
theorem uploadChunk_cases (db : Database) (now : Nat) (body : UploadChunkBody) :
    (((body.recordingId = none ∨ body.recordingId = some "") ∨ body.chunkIndex = none ∨
        (body.chunkData = none ∨ body.chunkData = some "")) ∧
      uploadChunk db now body =
        (db, { status := 400, body := .error "Données de chunk manquantes" })) ∨
    (∃ recordingId chunkIndex chunkData,
      body.recordingId = some recordingId ∧ recordingId ≠ "" ∧
      body.chunkIndex = some chunkIndex ∧
      body.chunkData = some chunkData ∧ chunkData ≠ "" ∧
      uploadChunk db now body =
        ((saveAudioChunk db now recordingId chunkIndex (bufferFromBase64 chunkData)).1,
         { status := 200,
           body := .chunkSaved
             { chunkIndex := chunkIndex, size := (bufferFromBase64 chunkData).length } })) := by
  obtain ⟨rid, idx, data⟩ := body
  by_cases hrid : truthyString rid = true
  · cases idx with
    | none =>
      left
      exact ⟨Or.inr (Or.inl rfl), by simp [uploadChunk]⟩
    | some i =>
      by_cases hdata : truthyString data = true
      · right
        cases rid with
        | none => simp [truthyString] at hrid
        | some r =>
          cases data with
          | none => simp [truthyString] at hdata
          | some d =>
            have hr : r ≠ "" := by simpa [truthyString] using hrid
            have hd : d ≠ "" := by simpa [truthyString] using hdata
            exact ⟨r, i, d, rfl, hr, rfl, rfl, hd, by
              simp [uploadChunk, truthyString_some hr, truthyString_some hd, saveAudioChunk]⟩
      · left
        simp only [Bool.not_eq_true] at hdata
        exact ⟨Or.inr (Or.inr ((truthyString_eq_false_iff data).mp hdata)),
          by simp [uploadChunk, hdata]⟩
  · left
    simp only [Bool.not_eq_true] at hrid
    exact ⟨Or.inl ((truthyString_eq_false_iff rid).mp hrid), by simp [uploadChunk, hrid]⟩

/-- C11: `upload-chunk` answers 400 exactly when `recordingId` is absent or empty,
`chunkIndex` is absent, or `chunkData` is absent or empty; a 400 answer carries an error
field and stores nothing. A body holding only `recordingId = "r1"` is answered 400, and
`chunkIndex = 0` with a non-empty `recordingId` and `chunkData` is accepted. -/
theorem uploadChunk_rejects_missing_fields (db : Database) (now : Nat) (body : UploadChunkBody) :
    ((uploadChunk db now body).2.status = 400 ↔
      ((body.recordingId = none ∨ body.recordingId = some "") ∨ body.chunkIndex = none ∨
        (body.chunkData = none ∨ body.chunkData = some ""))) ∧
    ((uploadChunk db now body).2.status = 400 →
      (∃ msg, (uploadChunk db now body).2.body = .error msg) ∧ (uploadChunk db now body).1 = db) ∧
    (uploadChunk db now
      { recordingId := some "r1", chunkIndex := none, chunkData := none }).2.status = 400 ∧
    (∀ recordingId chunkData : String, recordingId ≠ "" → chunkData ≠ "" →
      (uploadChunk db now
        { recordingId := some recordingId, chunkIndex := some 0,
          chunkData := some chunkData }).2.status = 200) := by
  refine ⟨?_, ?_, ?_, ?_⟩
  · rcases uploadChunk_cases db now body with ⟨hmiss, heq⟩ | ⟨r, i, d, hr, hrne, hi, hd, hdne, heq⟩
    · rw [heq]
      exact ⟨fun _ => hmiss, fun _ => rfl⟩
    · rw [heq]
      constructor
      · intro h
        exact absurd (show (200 : Nat) = 400 from h) (by decide)
      · rintro ((h | h) | h | (h | h))
        · rw [hr] at h; exact absurd h (by simp)
        · rw [hr] at h; exact absurd (Option.some.inj h) hrne
        · rw [hi] at h; exact absurd h (by simp)
        · rw [hd] at h; exact absurd h (by simp)
        · rw [hd] at h; exact absurd (Option.some.inj h) hdne
  · rcases uploadChunk_cases db now body with ⟨_, heq⟩ | ⟨r, i, d, _, _, _, _, _, heq⟩
    · rw [heq]
      exact fun _ => ⟨⟨_, rfl⟩, rfl⟩
    · rw [heq]
      intro h
      exact absurd (show (200 : Nat) = 400 from h) (by decide)
  · simp [uploadChunk, truthyString]
  · intro recordingId chunkData hr hd
    simp [uploadChunk, truthyString_some hr, truthyString_some hd]

/-- Witness of C11: the body `{recordingId: "r1"}` on the empty database. -/
theorem uploadChunk_rejects_missing_fields_witness :
    (uploadChunk Database.empty 0
        { recordingId := some "r1", chunkIndex := none, chunkData := none }).2.body =
        .error "Données de chunk manquantes" ∧
      (uploadChunk Database.empty 0
        { recordingId := some "r1", chunkIndex := none, chunkData := none }).1 = Database.empty :=
  ⟨rfl, ((uploadChunk_rejects_missing_fields Database.empty 0
      { recordingId := some "r1", chunkIndex := none, chunkData := none }).2.1
      ((uploadChunk_rejects_missing_fields Database.empty 0
        { recordingId := some "r1", chunkIndex := none, chunkData := none }).1.mpr
        (Or.inr (Or.inl rfl)))).2⟩

/-- C12: `finalize-chunked-upload` with `recordingId` absent or empty answers 400 with an
error field; nothing is reassembled or created: `audio_recordings` and `audio_chunks`
(the whole database) stay as they were. -/
theorem finalize_rejects_missing_id (db : Database) (now : Nat) (body : FinalizeBody)
    (hid : body.recordingId = none ∨ body.recordingId = some "") :
    (finalizeChunkedUpload db now body).2.status = 400 ∧
    (∃ msg, (finalizeChunkedUpload db now body).2.body = .error msg) ∧
    (finalizeChunkedUpload db now body).1.audio_recordings = db.audio_recordings ∧
    (finalizeChunkedUpload db now body).1.audio_chunks = db.audio_chunks ∧
    (finalizeChunkedUpload db now body).1 = db := by
  have hfalsy : truthyString body.recordingId = false := (truthyString_eq_false_iff _).mpr hid
  have heq : finalizeChunkedUpload db now body =
      (db, { status := 400, body := .error "ID d\x27enregistrement manquant" }) := by
    simp [finalizeChunkedUpload, hfalsy]
  rw [heq]
  exact ⟨rfl, ⟨_, rfl⟩, rfl, rfl, rfl⟩

/-- Witness of C12: a body without `recordingId` on a database holding one chunk. -/
theorem finalize_rejects_missing_id_witness :
    (finalizeChunkedUpload (saveAudioChunks (fun k => k) "r1" [(0, [1])] 0 Database.empty) 3
      { recordingId := none, filename := some "a.m4a", originalName := none, mimeType := none,
        totalSize := some 1 }).2.status = 400 :=
  (finalize_rejects_missing_id (saveAudioChunks (fun k => k) "r1" [(0, [1])] 0 Database.empty) 3
    { recordingId := none, filename := some "a.m4a", originalName := none, mimeType := none,
      totalSize := some 1 } (Or.inl rfl)).1

theorem finalizeChunkedUpload_audio_chunks (db : Database) (now : Nat) (body : FinalizeBody) :
    (finalizeChunkedUpload db now body).1.audio_chunks = db.audio_chunks := by
  rcases finalizeChunkedUpload_cases db now body with ⟨h, _⟩ | ⟨h, _⟩ <;> rw [h]

/-- C15: a finalize request, successful or not, leaves `audio_chunks` exactly as it was;
an `upload-chunk` request either is refused and leaves the table as it was, or appends
one row after the existing rows, which are unchanged. -/
theorem chunks_never_mutated (db : Database) (now : Nat) (finalizeBody : FinalizeBody)
    (chunkBody : UploadChunkBody) :
    (finalizeChunkedUpload db now finalizeBody).1.audio_chunks = db.audio_chunks ∧
    (((uploadChunk db now chunkBody).2.status = 400 ∧
        (uploadChunk db now chunkBody).1.audio_chunks = db.audio_chunks) ∨
      ((uploadChunk db now chunkBody).2.status = 200 ∧
        ∃ row, (uploadChunk db now chunkBody).1.audio_chunks = db.audio_chunks ++ [row])) := by
  refine ⟨finalizeChunkedUpload_audio_chunks db now finalizeBody, ?_⟩
  rcases uploadChunk_cases db now chunkBody with ⟨_, heq⟩ | ⟨r, i, d, _, _, _, _, _, heq⟩
  · left
    rw [heq]
    exact ⟨rfl, rfl⟩
  · right
    rw [heq]
    exact ⟨rfl, _, rfl⟩

end Lingua

namespace Lingua

/-! ## Deletion (C19, C20) -/

theorem getAllAudioRecords_id_mem (db : Database) (s : AudioRecordSummary)
    (hs : s ∈ getAllAudioRecords db) : ∃ r ∈ db.audio_recordings, r.id = s.id := by
  unfold getAllAudioRecords at hs
  obtain ⟨r, hr, hrs⟩ := List.mem_map.mp hs
  exact ⟨r, (List.mem_insertionSort createdAtGe).mp hr, by rw [← hrs]; rfl⟩

theorem deleteAudio_audio_chunks (db : Database) (id : String) :
    (deleteAudio db id).1.audio_chunks = db.audio_chunks := by
  unfold deleteAudio
  split <;> rfl

theorem deleteAudio_streaming_chunks (db : Database) (id : String) :
    (deleteAudio db id).1.streaming_chunks = db.streaming_chunks := by
  unfold deleteAudio
  split <;> rfl

theorem deleteAudio_status_of_present (db : Database) (id : String)
    (hpresent : ∃ r ∈ db.audio_recordings, r.id = id) : (deleteAudio db id).2.status = 200 := by
  obtain ⟨r, hr, hid⟩ := hpresent
  subst hid
  obtain ⟨first, hfirst⟩ := find_isSome_of_mem hr
  simp [deleteAudio, getAudioRecordById, hfirst]

/-- C19: for an id present in `audio_recordings`, `DELETE /api/audio/:id` answers 200 and
afterwards `getAllAudioRecords()` has no entry with that id, `getAudioRecordById(id)`
finds no row and `getAudioData(id)` is `null`. -/
theorem delete_makes_unobservable (db : Database) (id : String)
    (hpresent : ∃ r ∈ db.audio_recordings, r.id = id) :
    (deleteAudio db id).2.status = 200 ∧
    (∀ s ∈ getAllAudioRecords (deleteAudio db id).1, s.id ≠ id) ∧
    getAudioRecordById (deleteAudio db id).1 id = none ∧
    getAudioData (deleteAudio db id).1 id = none := by
  have hnone : ∀ r ∈ (deleteAudio db id).1.audio_recordings, r.id ≠ id := by
    rw [deleteAudio_audio_recordings]
    intro r hr
    simpa using (List.mem_filter.mp hr).2
  refine ⟨deleteAudio_status_of_present db id hpresent, ?_, ?_, ?_⟩
  · intro s hs hEq
    obtain ⟨r, hr, hrs⟩ := getAllAudioRecords_id_mem _ s hs
    exact hnone r hr (hrs.trans hEq)
  · simp only [getAudioRecordById, find_id_eq_none hnone, Option.map_none']
  · simp only [getAudioData, find_id_eq_none hnone, Option.map_none']

/-- Witness of C19: the recording `"r1"` next to the recording `"r2"`. -/
theorem delete_makes_unobservable_witness :
    getAudioData
      (deleteAudio
        (run Database.empty
          [(1, .finalizeChunkedUpload
              { recordingId := some "r1", filename := some "a.m4a", originalName := none,
                mimeType := none, totalSize := none }),
           (2, .finalizeChunkedUpload
              { recordingId := some "r2", filename := some "b.m4a", originalName := none,
                mimeType := none, totalSize := none })]) "r1").1 "r1" = none :=
  (delete_makes_unobservable
    (run Database.empty
      [(1, .finalizeChunkedUpload
          { recordingId := some "r1", filename := some "a.m4a", originalName := none,
            mimeType := none, totalSize := none }),
       (2, .finalizeChunkedUpload
          { recordingId := some "r2", filename := some "b.m4a", originalName := none,
            mimeType := none, totalSize := none })]) "r1" (by decide)).2.2.2

/-- C20, at a failing input: a chunk is uploaded for `"r1"`, `"r1"` is finalized, and
`DELETE /api/audio/r1` answers 200; the row of `audio_chunks` with `recording_id = "r1"`
is still in the table afterwards (as are all rows of `streaming_chunks`). -/
theorem deleteAudio_leaves_chunks :
    (deleteAudio
      (run Database.empty
        [(1, .uploadChunk { recordingId := some "r1", chunkIndex := some 0, chunkData := some "AAAA" }),
         (2, .finalizeChunkedUpload
            { recordingId := some "r1", filename := some "a.m4a", originalName := none,
              mimeType := none, totalSize := none })]) "r1").2.status = 200 ∧
    (deleteAudio
      (run Database.empty
        [(1, .uploadChunk { recordingId := some "r1", chunkIndex := some 0, chunkData := some "AAAA" }),
         (2, .finalizeChunkedUpload
            { recordingId := some "r1", filename := some "a.m4a", originalName := none,
              mimeType := none, totalSize := none })]) "r1").1.audio_chunks =
      [{ id := 1, recording_id := "r1", chunk_index := 0, chunk_data := [0, 0, 0],
         chunk_size := 3, created_at := 1 }] ∧
    ∀ (db : Database) (id : String),
      (deleteAudio db id).1.audio_chunks = db.audio_chunks ∧
      (deleteAudio db id).1.streaming_chunks = db.streaming_chunks :=
  ⟨by decide, by decide, fun db id => ⟨deleteAudio_audio_chunks db id, deleteAudio_streaming_chunks db id⟩⟩

end Lingua

namespace Lingua

/-! ## Base64 round trip -/

theorem unbase64_base64Char (n : Nat) (h : n < 64) : unbase64 (base64Char n) = some n := by
  interval_cases n <;> rfl

theorem base64Char_ne_pad (n : Nat) (h : n < 64) : (base64Char n != '=') = true := by
  interval_cases n <;> rfl

theorem base64Sextets_cons_base64Char (n : Nat) (h : n < 64) (rest : List Char) :
    base64Sextets (base64Char n :: rest) = n :: base64Sextets rest := by
  simp only [base64Sextets, List.takeWhile_cons, base64Char_ne_pad n h, if_true,
    List.filterMap_cons, unbase64_base64Char n h]

theorem base64Sextets_pad (rest : List Char) : base64Sextets ('=' :: rest) = [] := by
  simp [base64Sextets, List.takeWhile_cons]

theorem byteOf_val (a : Byte) : byteOf a.val = a := by
  apply Fin.ext
  simp only [byteOf]
  exact Nat.mod_eq_of_lt a.isLt

theorem decode_first (a b : Byte) :
    byteOf (a.val / 4 * 4 + (a.val % 4 * 16 + b.val / 16) / 16) = a := by
  have ha := a.isLt
  have hb := b.isLt
  have : a.val / 4 * 4 + (a.val % 4 * 16 + b.val / 16) / 16 = a.val := by omega
  rw [this, byteOf_val]

theorem decode_second (a b c : Byte) :
    byteOf ((a.val % 4 * 16 + b.val / 16) % 16 * 16 + (b.val % 16 * 4 + c.val / 64) / 4) = b := by
  have ha := a.isLt
  have hb := b.isLt
  have hc := c.isLt
  have : (a.val % 4 * 16 + b.val / 16) % 16 * 16 + (b.val % 16 * 4 + c.val / 64) / 4 = b.val := by
    omega
  rw [this, byteOf_val]

theorem decode_third (b c : Byte) :
    byteOf ((b.val % 16 * 4 + c.val / 64) % 4 * 64 + c.val % 64) = c := by
  have hb := b.isLt
  have hc := c.isLt
  have : (b.val % 16 * 4 + c.val / 64) % 4 * 64 + c.val % 64 = c.val := by omega
  rw [this, byteOf_val]

/-- Decoding the standard Base64 text of a byte sequence gives the sequence back. -/
theorem bufferFromBase64_base64Encode (bytes : List Byte) :
    bufferFromBase64 (String.mk (base64Encode bytes)) = bytes := by
  unfold bufferFromBase64
  simp only []
  induction bytes using base64Encode.induct with
  | case1 a b c rest ih =>
    have ha := a.isLt
    have hb := b.isLt
    have hc := c.isLt
    simp only [base64Encode]
    rw [base64Sextets_cons_base64Char _ (by omega), base64Sextets_cons_base64Char _ (by omega),
      base64Sextets_cons_base64Char _ (by omega), base64Sextets_cons_base64Char _ (by omega)]
    simp only [decodeSextets, ih, decode_first, decode_second, decode_third]
  | case2 a b =>
    have ha := a.isLt
    have hb := b.isLt
    simp only [base64Encode]
    rw [base64Sextets_cons_base64Char _ (by omega), base64Sextets_cons_base64Char _ (by omega),
      base64Sextets_cons_base64Char _ (by omega), base64Sextets_pad]
    simp only [decodeSextets, decode_first]
    have h2 := decode_second a b 0
    simp only [Fin.val_zero, Nat.zero_div, Nat.add_zero] at h2
    rw [h2]
  | case3 a =>
    have ha := a.isLt
    simp only [base64Encode]
    rw [base64Sextets_cons_base64Char _ (by omega), base64Sextets_cons_base64Char _ (by omega),
      base64Sextets_pad]
    simp only [decodeSextets]
    have h1 := decode_first a 0
    simp only [Fin.val_zero, Nat.zero_div, Nat.add_zero] at h1
    rw [h1]
  | case4 => rfl

end Lingua

namespace Lingua

/-! ## Chunk upload (C13, C14) -/

/-- C13: a successful `upload-chunk` (non-empty `recordingId`, a `chunkIndex`, non-empty
`chunkData`) answers 200, appends exactly one row to `audio_chunks` with
`recording_id = recordingId`, `chunk_index = chunkIndex`, `chunk_data` the decoded bytes
and `chunk_size` their length, changes no other table, and acknowledges with
`data = {chunkIndex, size}`, `size` being the decoded length; when `chunkData` is the
standard Base64 text of `bytes`, the stored `chunk_data` is `bytes` and `size` is its
length. -/
theorem uploadChunk_appends_one_row (db : Database) (now : Nat) (body : UploadChunkBody)
    (recordingId : String) (chunkIndex : Int) (chunkData : String)
    (hid : body.recordingId = some recordingId) (hne : recordingId ≠ "")
    (hindex : body.chunkIndex = some chunkIndex)
    (hdata : body.chunkData = some chunkData) (hdne : chunkData ≠ "") :
    (uploadChunk db now body).2.status = 200 ∧
    (uploadChunk db now body).1.audio_chunks =
      db.audio_chunks ++
        [{ id := db.audio_chunks_seq + 1, recording_id := recordingId,
           chunk_index := chunkIndex, chunk_data := bufferFromBase64 chunkData,
           chunk_size := (bufferFromBase64 chunkData).length, created_at := now }] ∧
    (uploadChunk db now body).1.audio_recordings = db.audio_recordings ∧
    (uploadChunk db now body).1.streaming_chunks = db.streaming_chunks ∧
    (uploadChunk db now body).2.body =
      .chunkSaved { chunkIndex := chunkIndex, size := (bufferFromBase64 chunkData).length } ∧
    ∀ bytes : Buffer, chunkData = String.mk (base64Encode bytes) →
      (uploadChunk db now body).1.audio_chunks =
        db.audio_chunks ++
          [{ id := db.audio_chunks_seq + 1, recording_id := recordingId,
             chunk_index := chunkIndex, chunk_data := bytes,
             chunk_size := bytes.length, created_at := now }] ∧
      (uploadChunk db now body).2.body =
        .chunkSaved { chunkIndex := chunkIndex, size := bytes.length } := by
  obtain ⟨r, i, d⟩ := body
  simp only at hid hindex hdata
  subst hid hindex hdata
  rw [uploadChunk_ok db now recordingId chunkIndex chunkData hne hdne]
  refine ⟨rfl, rfl, rfl, rfl, rfl, ?_⟩
  intro bytes hbytes
  rw [hbytes, bufferFromBase64_base64Encode]
  exact ⟨rfl, rfl⟩

/-- Witness of C13: the five bytes of `hello`, sent as `aGVsbG8=` at index 2. -/
theorem uploadChunk_appends_one_row_witness :
    (uploadChunk Database.empty 7
      { recordingId := some "r1", chunkIndex := some 2, chunkData := some "aGVsbG8=" }).1.audio_chunks =
      [{ id := 1, recording_id := "r1", chunk_index := 2,
         chunk_data := [104, 101, 108, 108, 111], chunk_size := 5, created_at := 7 }] :=
  ((uploadChunk_appends_one_row Database.empty 7
    { recordingId := some "r1", chunkIndex := some 2, chunkData := some "aGVsbG8=" }
    "r1" 2 "aGVsbG8=" rfl (by decide) rfl rfl (by decide)).2.2.2.2.2
    [104, 101, 108, 108, 111] (by decide)).1

theorem storedChunkBytes_saveAudioChunk (db : Database) (now : Nat) (recordingId : String)
    (chunkIndex : Int) (chunkData : Buffer) :
    storedChunkBytes (saveAudioChunk db now recordingId chunkIndex chunkData).1 recordingId =
      storedChunkBytes db recordingId + chunkData.length := by
  simp [storedChunkBytes, saveAudioChunk, List.filter_append]

theorem selectChunksOrdered_saveAudioChunk_perm (db : Database) (now : Nat)
    (recordingId : String) (chunkIndex : Int) (chunkData : Buffer) :
    (selectChunksOrdered (saveAudioChunk db now recordingId chunkIndex chunkData).1
        recordingId).Perm
      (selectChunksOrdered db recordingId ++
        [{ id := db.audio_chunks_seq + 1, recording_id := recordingId,
           chunk_index := chunkIndex, chunk_data := chunkData,
           chunk_size := chunkData.length, created_at := now }]) := by
  unfold selectChunksOrdered
  refine (List.perm_insertionSort chunkIndexLe _).trans ?_
  simp only [saveAudioChunk, List.filter_append]
  refine List.Perm.append (List.perm_insertionSort chunkIndexLe _).symm ?_
  simp

/-- C14: sending a valid `upload-chunk` request twice leaves two more rows in
`audio_chunks`, both with the `recording_id` and `chunk_index` of the request and with
the decoded payload; the rows reassembled for the recording are the former ones and
these two, and the reassembled length has grown by twice the payload length. -/
theorem uploadChunk_not_idempotent (db : Database) (now₁ now₂ : Nat) (body : UploadChunkBody)
    (recordingId : String) (chunkIndex : Int) (chunkData : String)
    (hid : body.recordingId = some recordingId) (hne : recordingId ≠ "")
    (hindex : body.chunkIndex = some chunkIndex)
    (hdata : body.chunkData = some chunkData) (hdne : chunkData ≠ "") :
    ∃ row₁ row₂ : AudioChunk,
      (uploadChunk (uploadChunk db now₁ body).1 now₂ body).1.audio_chunks =
        db.audio_chunks ++ [row₁, row₂] ∧
      row₁.recording_id = recordingId ∧ row₂.recording_id = recordingId ∧
      row₁.chunk_index = chunkIndex ∧ row₂.chunk_index = chunkIndex ∧
      row₁.chunk_data = bufferFromBase64 chunkData ∧
      row₂.chunk_data = bufferFromBase64 chunkData ∧
      (selectChunksOrdered (uploadChunk (uploadChunk db now₁ body).1 now₂ body).1
          recordingId).Perm (selectChunksOrdered db recordingId ++ [row₁, row₂]) ∧
      (assembleAudioFromChunks (uploadChunk (uploadChunk db now₁ body).1 now₂ body).1
          recordingId).length =
        (assembleAudioFromChunks db recordingId).length +
          2 * (bufferFromBase64 chunkData).length := by
  obtain ⟨r, i, d⟩ := body
  simp only at hid hindex hdata
  subst hid hindex hdata
  rw [uploadChunk_ok db now₁ recordingId chunkIndex chunkData hne hdne]
  simp only
  rw [uploadChunk_ok _ now₂ recordingId chunkIndex chunkData hne hdne]
  refine ⟨{ id := db.audio_chunks_seq + 1, recording_id := recordingId,
            chunk_index := chunkIndex, chunk_data := bufferFromBase64 chunkData,
            chunk_size := (bufferFromBase64 chunkData).length, created_at := now₁ },
          { id := db.audio_chunks_seq + 1 + 1, recording_id := recordingId,
            chunk_index := chunkIndex, chunk_data := bufferFromBase64 chunkData,
            chunk_size := (bufferFromBase64 chunkData).length, created_at := now₂ },
          ?_, rfl, rfl, rfl, rfl, rfl, rfl, ?_, ?_⟩
  · simp [saveAudioChunk]
  · refine (selectChunksOrdered_saveAudioChunk_perm _ now₂ recordingId chunkIndex _).trans ?_
    have h1 := selectChunksOrdered_saveAudioChunk_perm db now₁ recordingId chunkIndex
      (bufferFromBase64 chunkData)
    have h2 := h1.append_right
      [({ id := db.audio_chunks_seq + 1 + 1, recording_id := recordingId,
          chunk_index := chunkIndex, chunk_data := bufferFromBase64 chunkData,
          chunk_size := (bufferFromBase64 chunkData).length, created_at := now₂ } : AudioChunk)]
    simpa [saveAudioChunk] using h2
  · simp only [length_assembleAudioFromChunks, storedChunkBytes_saveAudioChunk]
    omega

/-- Witness of C14: the chunk `AAAA` (three zero bytes) sent twice at index 0 of `"r1"`. -/
theorem uploadChunk_not_idempotent_witness :
    (assembleAudioFromChunks
      (uploadChunk
        (uploadChunk Database.empty 1
          { recordingId := some "r1", chunkIndex := some 0, chunkData := some "AAAA" }).1 2
        { recordingId := some "r1", chunkIndex := some 0, chunkData := some "AAAA" }).1
      "r1").length =
      (assembleAudioFromChunks Database.empty "r1").length + 2 * (bufferFromBase64 "AAAA").length :=
  (uploadChunk_not_idempotent Database.empty 1 2
      { recordingId := some "r1", chunkIndex := some 0, chunkData := some "AAAA" }
      "r1" 0 "AAAA" rfl (by decide) rfl rfl (by decide)).elim
    (fun _ h => h.elim (fun _ h2 => h2.2.2.2.2.2.2.2.2))

end Lingua

namespace Lingua

/-! ## Client slices (C16, C17) -/

theorem flatten_blocks {α : Type} (l : List α) (size n : Nat) :
    ((List.range n).map (fun i => (l.drop (i * size)).take size)).flatten = l.take (n * size) := by
  induction n with
  | zero => simp
  | succ n ih =>
    rw [List.range_succ, List.map_append, List.flatten_append, ih, Nat.succ_mul, List.take_add]
    simp

/-- Slice `i` is the block of at most `base64ChunkSize` characters that starts at
position `i * base64ChunkSize`. -/
theorem chunkSlice_data (audioBase64 : String) (i : Nat) :
    (chunkSlice audioBase64 i).data =
      (audioBase64.data.drop (i * base64ChunkSize)).take base64ChunkSize := by
  simp only [chunkSlice, slice, String.length]
  rw [List.take_eq_take, List.length_drop]
  omega

theorem totalChunks_eq (audioBase64 : String) :
    totalChunks audioBase64 = (audioBase64.length + 87380) / 87381 := by
  simp only [totalChunks, base64ChunkSize_eq]
  omega

/-- C16 as stated fails on its last clause: the file of 262143 zero bytes has a Base64
text of 349524 = 4 * 87381 characters, which the driver cuts into 4 slices, and the last
slice has the full length 87381: it is not shorter than `base64ChunkSize`. -/
theorem last_slice_not_shorter :
    totalChunks (String.mk (base64Encode (List.replicate 262143 0))) = 4 ∧
    ¬ (chunkSlice (String.mk (base64Encode (List.replicate 262143 0)))
        (totalChunks (String.mk (base64Encode (List.replicate 262143 0))) - 1)).length
        < base64ChunkSize := by
  have hlen : (String.mk (base64Encode (List.replicate 262143 0))).length = 349524 := by
    simp only [String.length, length_base64Encode, List.length_replicate]
  have htotal : totalChunks (String.mk (base64Encode (List.replicate 262143 0))) = 4 := by
    rw [totalChunks_eq, hlen]
  refine ⟨htotal, ?_⟩
  rw [htotal, length_chunkSlice, hlen, base64ChunkSize_eq]
  norm_num

/-- C16, amended: the slices `chunkSlice s i`, `i = 0..N-1` with
`N = totalChunks s = ceil(|s| / base64ChunkSize)`, are the consecutive blocks of `s`
starting at the positions `i * base64ChunkSize`: their concatenation in index order is
`s`, every slice but the last has exactly `base64ChunkSize` characters, and the last
slice is non-empty and has at most `base64ChunkSize` characters (it is shorter exactly
when `|s|` is not a multiple of `base64ChunkSize`). -/
theorem slices_partition (audioBase64 : String) :
    ((List.range (totalChunks audioBase64)).map
        (fun i => (chunkSlice audioBase64 i).data)).flatten = audioBase64.data ∧
    (∀ i, (chunkSlice audioBase64 i).data =
        (audioBase64.data.drop (i * base64ChunkSize)).take base64ChunkSize) ∧
    (∀ i, i + 1 < totalChunks audioBase64 →
        (chunkSlice audioBase64 i).length = base64ChunkSize) ∧
    (0 < totalChunks audioBase64 →
        0 < (chunkSlice audioBase64 (totalChunks audioBase64 - 1)).length ∧
        (chunkSlice audioBase64 (totalChunks audioBase64 - 1)).length ≤ base64ChunkSize ∧
        ((chunkSlice audioBase64 (totalChunks audioBase64 - 1)).length < base64ChunkSize ↔
          audioBase64.length % base64ChunkSize ≠ 0)) := by
  refine ⟨?_, chunkSlice_data audioBase64, ?_, ?_⟩
  · have h : (fun i => (chunkSlice audioBase64 i).data) =
        (fun i => (audioBase64.data.drop (i * base64ChunkSize)).take base64ChunkSize) :=
      funext (chunkSlice_data audioBase64)
    rw [h, flatten_blocks]
    apply List.take_of_length_le
    have hl : audioBase64.data.length = audioBase64.length := rfl
    rw [hl, totalChunks_eq, base64ChunkSize_eq]
    omega
  · intro i hi
    rw [totalChunks_eq] at hi
    rw [length_chunkSlice, base64ChunkSize_eq]
    omega
  · intro hpos
    rw [totalChunks_eq] at hpos
    simp only [length_chunkSlice, totalChunks_eq, base64ChunkSize_eq]
    omega

/-- Witness of C16 amended: the text `AAAA` is a single slice. -/
theorem slices_partition_witness :
    0 < (chunkSlice "AAAA" (totalChunks "AAAA" - 1)).length :=
  ((slices_partition "AAAA").2.2.2 (by decide)).1

end Lingua

namespace Lingua

/-- No slice of the driver decodes to 65536 bytes: a slice has at most 87381 characters
and so decodes to at most 65535 bytes. -/
theorem length_decoded_chunkSlice_le (audioBase64 : String) (i : Nat) :
    (bufferFromBase64 (chunkSlice audioBase64 i)).length ≤ 65535 := by
  have h := length_bufferFromBase64_le (chunkSlice audioBase64 i)
  have hl : (chunkSlice audioBase64 i).length ≤ 87381 := by
    rw [length_chunkSlice, base64ChunkSize_eq]
    omega
  omega

/-- C17, at a failing input: for the file of 65538 zero bytes the driver makes 2 slices;
slice 0 is not the last one and has `base64ChunkSize = 87381` characters, yet decoded on
its own it yields at most 65535 bytes, not 65536. -/
theorem first_slice_decodes_short :
    totalChunks (String.mk (base64Encode (List.replicate 65538 0))) = 2 ∧
    (chunkSlice (String.mk (base64Encode (List.replicate 65538 0))) 0).length = base64ChunkSize ∧
    (bufferFromBase64
      (chunkSlice (String.mk (base64Encode (List.replicate 65538 0))) 0)).length ≤ 65535 ∧
    (bufferFromBase64
      (chunkSlice (String.mk (base64Encode (List.replicate 65538 0))) 0)).length ≠ chunkSize := by
  have hlen : (String.mk (base64Encode (List.replicate 65538 0))).length = 87384 := by
    simp only [String.length, length_base64Encode, List.length_replicate]
  have hle := length_decoded_chunkSlice_le (String.mk (base64Encode (List.replicate 65538 0))) 0
  refine ⟨?_, ?_, hle, ?_⟩
  · rw [totalChunks_eq, hlen]
  · rw [length_chunkSlice, hlen, base64ChunkSize_eq]
    norm_num
  · have hc : chunkSize = 65536 := by decide
    rw [hc]
    exact Nat.ne_of_lt (Nat.lt_succ_of_le hle)

end Lingua

namespace Lingua

/-! ## The driver as a function of the server (C18) -/

/-- The loop against the server of this repository is `uploadChunksFrom`. -/
theorem exchangeChunksFrom_serverFetch (clock : Nat → Nat) (recordingId audioBase64 : String)
    (remaining i : Nat) (db : Database) :
    (exchangeChunksFrom (serverFetch clock) recordingId audioBase64 remaining i (db, i)).1.1 =
        (uploadChunksFrom clock recordingId audioBase64 remaining i db).1 ∧
    (exchangeChunksFrom (serverFetch clock) recordingId audioBase64 remaining i (db, i)).2.2 =
        (uploadChunksFrom clock recordingId audioBase64 remaining i db).2 ∧
    ((exchangeChunksFrom (serverFetch clock) recordingId audioBase64 remaining i (db, i)).2.2 = none →
      (exchangeChunksFrom (serverFetch clock) recordingId audioBase64 remaining i (db, i)).1.2 =
        i + remaining) := by
  induction remaining generalizing i db with
  | zero => exact ⟨rfl, rfl, fun _ => rfl⟩
  | succ n ih =>
    simp only [exchangeChunksFrom, uploadChunksFrom, serverFetch, chunkRequest, handle]
    by_cases hs : (uploadChunk db (clock i)
        { recordingId := some recordingId, chunkIndex := some (i : Int),
          chunkData := some (chunkSlice audioBase64 i) }).2.success = true
    · simp only [hs, Bool.not_true, Bool.false_eq_true, if_false]
      have h := ih (i + 1) (uploadChunk db (clock i)
        { recordingId := some recordingId, chunkIndex := some (i : Int),
          chunkData := some (chunkSlice audioBase64 i) }).1
      simp only [serverFetch, chunkRequest, handle] at h
      refine ⟨h.1, h.2.1, fun hn => ?_⟩
      rw [h.2.2 hn]
      omega
    · simp only [Bool.not_eq_true] at hs
      simp only [hs, Bool.not_false, if_true]
      exact ⟨trivial, trivial, fun hn => absurd hn (by simp)⟩

/-- The driver against the server of this repository is `uploadToBackend`. -/
theorem uploadToBackendWith_serverFetch (clock : Nat → Nat) (recordingId filename : String)
    (file : Buffer) (db : Database) :
    (uploadToBackendWith (serverFetch clock) recordingId filename file (db, 0)).1.1 =
        (uploadToBackend clock recordingId filename file db).1 ∧
    (uploadToBackendWith (serverFetch clock) recordingId filename file (db, 0)).2.2 =
        (uploadToBackend clock recordingId filename file db).2 := by
  unfold uploadToBackendWith uploadToBackend
  simp only []
  generalize String.mk (base64Encode file) = audioBase64
  generalize totalChunks audioBase64 = n
  have h := exchangeChunksFrom_serverFetch clock recordingId audioBase64 n 0 db
  generalize exchangeChunksFrom (serverFetch clock) recordingId audioBase64 n 0 (db, 0) = res at h
  generalize uploadChunksFrom clock recordingId audioBase64 n 0 db = loop at h
  obtain ⟨⟨db1, k⟩, log, failed⟩ := res
  obtain ⟨db2, failed2⟩ := loop
  simp only at h
  obtain ⟨h1, h2, h3⟩ := h
  subst h1 h2
  cases failed with
  | some j => exact ⟨rfl, rfl⟩
  | none =>
    have hk0 := h3 rfl
    rw [Nat.zero_add] at hk0
    subst hk0
    simp only [serverFetch, finalizeRequest, handle]
    constructor <;> split <;> rfl

/-- The exchanges of the loop: chunk requests with consecutive indices from `i`, all
answered successfully, except that a refused chunk ends the loop at once. -/
theorem exchangeChunksFrom_log {σ : Type} (fetch : σ → Request → σ × Response)
    (recordingId audioBase64 : String) (remaining i : Nat) (st : σ) :
    ((exchangeChunksFrom fetch recordingId audioBase64 remaining i st).2.2 = none ∧
      (exchangeChunksFrom fetch recordingId audioBase64 remaining i st).2.1.map Prod.fst =
        (List.range' i remaining).map (chunkRequest recordingId audioBase64) ∧
      ∀ e ∈ (exchangeChunksFrom fetch recordingId audioBase64 remaining i st).2.1,
        e.2.success = true) ∨
    (∃ j oks response,
      (exchangeChunksFrom fetch recordingId audioBase64 remaining i st).2.2 = some j ∧
      i ≤ j ∧ j < i + remaining ∧
      (exchangeChunksFrom fetch recordingId audioBase64 remaining i st).2.1 =
        oks ++ [(chunkRequest recordingId audioBase64 j, response)] ∧
      oks.map Prod.fst = (List.range' i (j - i)).map (chunkRequest recordingId audioBase64) ∧
      (∀ e ∈ oks, e.2.success = true) ∧ response.success = false) := by
  induction remaining generalizing i st with
  | zero =>
    left
    exact ⟨rfl, rfl, fun e he => absurd he (List.not_mem_nil e)⟩
  | succ n ih =>
    simp only [exchangeChunksFrom]
    by_cases hs : (fetch st (chunkRequest recordingId audioBase64 i)).2.success = true
    · simp only [hs, Bool.not_true, Bool.false_eq_true, if_false]
      rcases ih (i + 1) (fetch st (chunkRequest recordingId audioBase64 i)).1 with
        ⟨hnone, hreqs, hok⟩ | ⟨j, oks, response, hsome, hij, hjn, hlog, hreqs, hok, hbad⟩
      · left
        refine ⟨hnone, ?_, ?_⟩
        · rw [List.map_cons, hreqs, List.range'_succ, List.map_cons]
        · intro e he
          rcases List.mem_cons.mp he with he | he
          · rw [he]; exact hs
          · exact hok e he
      · right
        refine ⟨j, (chunkRequest recordingId audioBase64 i,
          (fetch st (chunkRequest recordingId audioBase64 i)).2) :: oks, response, hsome,
          by omega, by omega, ?_, ?_, ?_, hbad⟩
        · rw [hlog, List.cons_append]
        · have hji : j - i = (j - (i + 1)) + 1 := by omega
          rw [List.map_cons, hreqs, hji, List.range'_succ, List.map_cons]
        · intro e he
          rcases List.mem_cons.mp he with he | he
          · rw [he]; exact hs
          · exact hok e he
    · simp only [Bool.not_eq_true] at hs
      simp only [hs, Bool.not_false, if_true]
      right
      refine ⟨i, [], (fetch st (chunkRequest recordingId audioBase64 i)).2, rfl, le_refl i,
        by omega, rfl, ?_, fun e he => absurd he (List.not_mem_nil e), hs⟩
      simp

/-- C18: whatever the server answers, `uploadToBackend` issues `upload-chunk` requests
with `chunkIndex` 0, 1, 2, ... in this order, request `i` carrying slice `i` under the
same `recordingId`, and stops at the first chunk whose response is not successful: then
the refused chunk is the last request and no finalize is issued. When all
`N = totalChunks` chunks succeeded, exactly one finalize request follows chunk `N - 1`
and ends the exchange. -/
theorem uploadToBackend_drive_order {σ : Type} (fetch : σ → Request → σ × Response)
    (recordingId filename : String) (file : Buffer) (st : σ) :
    (∃ j oks response,
      (uploadToBackendWith fetch recordingId filename file st).2.2 = .chunkFailed j ∧
      j < totalChunks (String.mk (base64Encode file)) ∧
      (uploadToBackendWith fetch recordingId filename file st).2.1 =
        oks ++ [(chunkRequest recordingId (String.mk (base64Encode file)) j, response)] ∧
      oks.map Prod.fst =
        (List.range j).map (chunkRequest recordingId (String.mk (base64Encode file))) ∧
      (∀ e ∈ oks, e.2.success = true) ∧ response.success = false) ∨
    (∃ oks response,
      (uploadToBackendWith fetch recordingId filename file st).2.2 =
        (if !response.success then .finalizeFailed else .uploaded) ∧
      (uploadToBackendWith fetch recordingId filename file st).2.1 =
        oks ++ [(finalizeRequest recordingId filename file.length, response)] ∧
      oks.map Prod.fst =
        (List.range (totalChunks (String.mk (base64Encode file)))).map
          (chunkRequest recordingId (String.mk (base64Encode file))) ∧
      (∀ e ∈ oks, e.2.success = true)) := by
  unfold uploadToBackendWith
  simp only []
  generalize String.mk (base64Encode file) = audioBase64
  generalize totalChunks audioBase64 = n
  have h := exchangeChunksFrom_log fetch recordingId audioBase64 n 0 st
  generalize exchangeChunksFrom fetch recordingId audioBase64 n 0 st = res at h
  obtain ⟨st1, log, failed⟩ := res
  simp only at h
  rcases h with ⟨hnone, hreqs, hok⟩ | ⟨j, oks, response, hsome, _, hjn, hlog, hreqs, hok, hbad⟩
  · right
    subst hnone
    rw [← List.range_eq_range'] at hreqs
    exact ⟨log, _, rfl, rfl, hreqs, hok⟩
  · left
    subst hsome
    rw [Nat.sub_zero, ← List.range_eq_range'] at hreqs
    exact ⟨j, oks, response, rfl, by omega, hlog, hreqs, hok, hbad⟩

end Lingua

namespace Lingua

/-! ## Reads of the registry (C21 - C23) -/

/-- C21: for an id without row in `audio_recordings`, `GET /api/audio/:id`,
`GET /api/audio/:id/download` and `DELETE /api/audio/:id` each answer 404 with a body
holding an error field and leave the database (`audio_recordings`, `audio_chunks` and
all the rest) as it was. -/
theorem unknown_id_not_found (db : Database) (id : String)
    (habsent : ∀ r ∈ db.audio_recordings, r.id ≠ id) :
    ((getAudio db id).2.status = 404 ∧ (∃ msg, (getAudio db id).2.body = .error msg) ∧
      (getAudio db id).1 = db) ∧
    ((downloadAudio db id).2.status = 404 ∧ (∃ msg, (downloadAudio db id).2.body = .error msg) ∧
      (downloadAudio db id).1 = db) ∧
    ((deleteAudio db id).2.status = 404 ∧ (∃ msg, (deleteAudio db id).2.body = .error msg) ∧
      (deleteAudio db id).1 = db) := by
  have hnone : getAudioRecordById db id = none := by
    simp only [getAudioRecordById, find_id_eq_none habsent, Option.map_none']
  have hget : getAudio db id =
      (db, { status := 404, body := .error "Enregistrement non trouvé" }) := by
    simp only [getAudio, hnone]
  have hdownload : downloadAudio db id =
      (db, { status := 404, body := .error "Enregistrement non trouvé" }) := by
    simp only [downloadAudio, hnone]
  have hdelete : deleteAudio db id =
      (db, { status := 404, body := .error "Enregistrement non trouvé" }) := by
    simp only [deleteAudio, hnone]
  rw [hget, hdownload, hdelete]
  exact ⟨⟨rfl, ⟨_, rfl⟩, rfl⟩, ⟨rfl, ⟨_, rfl⟩, rfl⟩, ⟨rfl, ⟨_, rfl⟩, rfl⟩⟩

/-- Witness of C21: the id `"unknown-id"` on a database holding the recording `"r1"`. -/
theorem unknown_id_not_found_witness :
    (getAudio
      (run Database.empty
        [(1, .finalizeChunkedUpload
            { recordingId := some "r1", filename := some "a.m4a", originalName := none,
              mimeType := none, totalSize := none })]) "unknown-id").2.status = 404 :=
  (unknown_id_not_found
    (run Database.empty
      [(1, .finalizeChunkedUpload
          { recordingId := some "r1", filename := some "a.m4a", originalName := none,
            mimeType := none, totalSize := none })]) "unknown-id" (by decide)).1.1

theorem orString_ne_empty (a : Option String) {b : String} (hb : b ≠ "") :
    orString a b ≠ "" := by
  unfold orString
  split
  · rename_i ht
    cases a with
    | none => simp [truthyString] at ht
    | some s => simpa [truthyString] using ht
  · exact hb

/-- The download of a recording whose first row with that id is `row`. -/
theorem downloadAudio_of_find (db : Database) (id : String) (row : AudioRecording)
    (hrow : db.audio_recordings.find? (fun r => r.id == id) = some row)
    (hmime : row.mime_type ≠ "") :
    downloadAudio db id =
      (db, { status := 200,
             body := .download row.mime_type
               ("attachment; filename=\"" ++ row.original_name ++ "\"")
               row.audio_data.length row.audio_data }) := by
  simp [downloadAudio, getAudioRecordById, getAudioData, hrow, AudioRecording.summary, hmime]

/-- C22: after a finalize that created the recording with a non-empty reassembled payload,
and after any further requests that do not delete it, `GET /api/audio/:id/download`
answers 200 with a body byte-identical to what `assembleAudioFromChunks(recordingId)`
gave at finalize time, a `Content-Length` equal to the byte length of that body, and a
`Content-Type` equal to the stored `mime_type`. -/
theorem download_returns_finalized_payload (db : Database) (now : Nat) (body : FinalizeBody)
    (recordingId : String) (reqs : List (Nat × Request))
    (hid : body.recordingId = some recordingId) (hne : recordingId ≠ "")
    (habsent : ∀ r ∈ db.audio_recordings, r.id ≠ recordingId)
    (_hpayload : assembleAudioFromChunks db recordingId ≠ [])
    (hreqs : ∀ item ∈ reqs, item.2 ≠ Request.deleteAudio recordingId) :
    (finalizeChunkedUpload db now body).2.status = 200 ∧
    ∃ disposition,
      (downloadAudio (run (finalizeChunkedUpload db now body).1 reqs) recordingId).2 =
        { status := 200,
          body := .download (finalizedRow db now body).mime_type disposition
            (assembleAudioFromChunks db recordingId).length
            (assembleAudioFromChunks db recordingId) } ∧
      (getAudioRecordById (run (finalizeChunkedUpload db now body).1 reqs) recordingId).map
        (fun row => row.mime_type) = some (finalizedRow db now body).mime_type := by
  rw [finalizeChunkedUpload_fresh db now body recordingId hid hne habsent]
  refine ⟨rfl, ?_⟩
  have hfirst : ({ db with audio_recordings :=
      db.audio_recordings ++ [finalizedRow db now body] } : Database).audio_recordings.find?
      (fun r => r.id == recordingId) = some (finalizedRow db now body) := by
    simp [List.find?_append, find_id_eq_none habsent, finalizedRow, hid]
  have hkept := (run_keeps_recording reqs _ recordingId hreqs _ hfirst).1
  have hmime : (finalizedRow db now body).mime_type ≠ "" :=
    orString_ne_empty body.mimeType (by decide)
  refine ⟨"attachment; filename=\"" ++ (finalizedRow db now body).original_name ++ "\"", ?_, ?_⟩
  · rw [downloadAudio_of_find _ recordingId _ hkept hmime]
    simp [finalizedRow, hid]
  · simp [getAudioRecordById, hkept, AudioRecording.summary]

/-- Witness of C22: a chunk of three bytes under `"r1"`, finalized with the type
`audio/wav`, downloaded after a chunk upload for another recording. -/
theorem download_returns_finalized_payload_witness :
    (finalizeChunkedUpload (saveAudioChunks (fun k => k) "r1" [(0, [1, 2, 3])] 0 Database.empty) 5
      { recordingId := some "r1", filename := some "a.m4a", originalName := some "a.m4a",
        mimeType := some "audio/wav", totalSize := none }).2.status = 200 :=
  (download_returns_finalized_payload
    (saveAudioChunks (fun k => k) "r1" [(0, [1, 2, 3])] 0 Database.empty) 5
    { recordingId := some "r1", filename := some "a.m4a", originalName := some "a.m4a",
      mimeType := some "audio/wav", totalSize := none } "r1"
    [(6, .uploadChunk { recordingId := some "r2", chunkIndex := some 0, chunkData := some "AAAA" })]
    rfl (by decide) (by decide) (by decide) (by decide)).1

end Lingua

namespace Lingua

/-- C23: `getAllAudioRecords` returns one summary per row of `audio_recordings` (the
summaries are a rearrangement of the rows' summaries, so the ids are the same with the
same multiplicities, none missing and none added; they are duplicate-free when the ids
of the table are), a summary has every column but `audio_data`, and the summaries are
ordered by non-increasing `created_at`. -/
theorem getAllAudioRecords_spec (db : Database) :
    (getAllAudioRecords db).Perm (db.audio_recordings.map AudioRecording.summary) ∧
    ((getAllAudioRecords db).map (fun s => s.id)).Perm (db.audio_recordings.map (fun r => r.id)) ∧
    (getAllAudioRecords db).length = db.audio_recordings.length ∧
    ((db.audio_recordings.map (fun r => r.id)).Nodup →
      ((getAllAudioRecords db).map (fun s => s.id)).Nodup) ∧
    (∀ r : AudioRecording, r.summary =
      { id := r.id, filename := r.filename, original_name := r.original_name,
        file_size := r.file_size, mime_type := r.mime_type, upload_date := r.upload_date,
        created_at := r.created_at, updated_at := r.updated_at }) ∧
    (getAllAudioRecords db).Pairwise (fun a b => b.created_at ≤ a.created_at) := by
  have hperm : (getAllAudioRecords db).Perm (db.audio_recordings.map AudioRecording.summary) :=
    (List.perm_insertionSort createdAtGe db.audio_recordings).map AudioRecording.summary
  have hids : ((getAllAudioRecords db).map (fun s => s.id)).Perm
      (db.audio_recordings.map (fun r => r.id)) := by
    have h := hperm.map (fun s => s.id)
    rw [List.map_map] at h
    exact h
  refine ⟨hperm, hids, ?_, fun hnodup => (List.Perm.nodup_iff hids).mpr hnodup, fun _ => rfl, ?_⟩
  · have h := hperm.length_eq
    rw [List.length_map] at h
    exact h
  · unfold getAllAudioRecords
    rw [List.pairwise_map]
    exact List.sorted_insertionSort createdAtGe db.audio_recordings

/-- Witness of C23: three recordings created at the times 5, 9 and 7 are listed in the
order 9, 7, 5. -/
theorem getAllAudioRecords_spec_witness :
    ((getAllAudioRecords
      (run Database.empty
        [(5, .finalizeChunkedUpload
            { recordingId := some "r1", filename := some "a.m4a", originalName := none,
              mimeType := none, totalSize := none }),
         (9, .finalizeChunkedUpload
            { recordingId := some "r2", filename := some "b.m4a", originalName := none,
              mimeType := none, totalSize := none }),
         (7, .finalizeChunkedUpload
            { recordingId := some "r3", filename := some "c.m4a", originalName := none,
              mimeType := none, totalSize := none })])).map (fun s => s.id)).Nodup :=
  (getAllAudioRecords_spec
    (run Database.empty
      [(5, .finalizeChunkedUpload
          { recordingId := some "r1", filename := some "a.m4a", originalName := none,
            mimeType := none, totalSize := none }),
       (9, .finalizeChunkedUpload
          { recordingId := some "r2", filename := some "b.m4a", originalName := none,
            mimeType := none, totalSize := none }),
       (7, .finalizeChunkedUpload
          { recordingId := some "r3", filename := some "c.m4a", originalName := none,
            mimeType := none, totalSize := none })])).2.2.2.1 (by decide)

end Lingua

namespace Lingua

/-! ## Metadata and update (C24, C25) -/

theorem orString_of_ne_empty (s b : String) (hs : s ≠ "") : orString (some s) b = s := by
  simp [orString, truthyString, hs]

theorem orString_none (b : String) : orString none b = b := by
  simp [orString, truthyString]

/-- The summary served for an identifier right after the finalize that created it. -/
theorem getAudioRecordById_finalize_fresh (db : Database) (now : Nat) (body : FinalizeBody)
    (recordingId : String) (hid : body.recordingId = some recordingId) (hne : recordingId ≠ "")
    (habsent : ∀ r ∈ db.audio_recordings, r.id ≠ recordingId) :
    getAudioRecordById (finalizeChunkedUpload db now body).1 recordingId =
      some (finalizedRow db now body).summary := by
  rw [finalizeChunkedUpload_fresh db now body recordingId hid hne habsent]
  simp [getAudioRecordById, List.find?_append, find_id_eq_none habsent, finalizedRow, hid]

/-- C24 as stated fails: a finalize supplying the filename `a.m4a` creates a recording
whose `filename` is `lingua_a.m4a`, in the row and in the response; and a supplied empty
`mimeType` is replaced by `audio/mp4`. -/
theorem finalize_filename_not_as_supplied :
    (getAudioRecordById
      (finalizeChunkedUpload Database.empty 3
        { recordingId := some "r1", filename := some "a.m4a", originalName := some "a.m4a",
          mimeType := some "", totalSize := none }).1 "r1").map (fun row => row.filename) =
      some "lingua_a.m4a" ∧
    (finalizeChunkedUpload Database.empty 3
      { recordingId := some "r1", filename := some "a.m4a", originalName := some "a.m4a",
        mimeType := some "", totalSize := none }).2.body =
      .finalized "r1" "lingua_a.m4a" 3 0 ∧
    ("lingua_a.m4a" : String) ≠ "a.m4a" ∧
    (getAudioRecordById
      (finalizeChunkedUpload Database.empty 3
        { recordingId := some "r1", filename := some "a.m4a", originalName := some "a.m4a",
          mimeType := some "", totalSize := none }).1 "r1").map (fun row => row.mime_type) =
      some "audio/mp4" := by
  refine ⟨by decide, by decide, by decide, by decide⟩

/-- C24, amended: a finalize that creates the recording stores the supplied non-empty
`originalName` and `mimeType` as `original_name` and `mime_type`, and stores the supplied
non-empty `filename` prefixed with `lingua_` as `filename`, which is also the filename of
the response; when they are absent, `mime_type` is `audio/mp4`, `original_name` is
`recording.m4a` and the filename is `lingua_recording_<now>.m4a`, made from the current
time. -/
theorem finalize_uses_metadata (db : Database) (now : Nat) (body : FinalizeBody)
    (recordingId : String) (hid : body.recordingId = some recordingId) (hne : recordingId ≠ "")
    (habsent : ∀ r ∈ db.audio_recordings, r.id ≠ recordingId) :
    (∀ filename, body.filename = some filename → filename ≠ "" →
      (getAudioRecordById (finalizeChunkedUpload db now body).1 recordingId).map
          (fun row => row.filename) = some ("lingua_" ++ filename) ∧
      ∃ size, (finalizeChunkedUpload db now body).2.body =
          .finalized recordingId ("lingua_" ++ filename) now size) ∧
    (∀ originalName, body.originalName = some originalName → originalName ≠ "" →
      (getAudioRecordById (finalizeChunkedUpload db now body).1 recordingId).map
          (fun row => row.original_name) = some originalName) ∧
    (∀ mimeType, body.mimeType = some mimeType → mimeType ≠ "" →
      (getAudioRecordById (finalizeChunkedUpload db now body).1 recordingId).map
          (fun row => row.mime_type) = some mimeType) ∧
    (body.filename = none →
      (getAudioRecordById (finalizeChunkedUpload db now body).1 recordingId).map
          (fun row => row.filename) =
        some ("lingua_" ++ ("recording_" ++ toString now ++ ".m4a"))) ∧
    (body.originalName = none →
      (getAudioRecordById (finalizeChunkedUpload db now body).1 recordingId).map
          (fun row => row.original_name) = some "recording.m4a") ∧
    (body.mimeType = none →
      (getAudioRecordById (finalizeChunkedUpload db now body).1 recordingId).map
          (fun row => row.mime_type) = some "audio/mp4") := by
  rw [getAudioRecordById_finalize_fresh db now body recordingId hid hne habsent,
    finalizeChunkedUpload_fresh db now body recordingId hid hne habsent]
  refine ⟨?_, ?_, ?_, ?_, ?_, ?_⟩
  · intro filename hf hfne
    simp only [Option.map_some', AudioRecording.summary, finalizedRow, hf,
      orString_of_ne_empty filename _ hfne]
    exact ⟨trivial, _, rfl⟩
  · intro originalName ho hone
    simp only [Option.map_some', AudioRecording.summary, finalizedRow, ho,
      orString_of_ne_empty originalName _ hone]
  · intro mimeType hm hmne
    simp only [Option.map_some', AudioRecording.summary, finalizedRow, hm,
      orString_of_ne_empty mimeType _ hmne]
  · intro hf
    simp only [Option.map_some', AudioRecording.summary, finalizedRow, hf, orString_none]
  · intro ho
    simp only [Option.map_some', AudioRecording.summary, finalizedRow, ho, orString_none]
  · intro hm
    simp only [Option.map_some', AudioRecording.summary, finalizedRow, hm, orString_none]

/-- Witness of C24 amended: the metadata `a.m4a`, `take1.m4a`, `audio/wav`. -/
theorem finalize_uses_metadata_witness :
    (getAudioRecordById
      (finalizeChunkedUpload Database.empty 3
        { recordingId := some "r1", filename := some "a.m4a", originalName := some "take1.m4a",
          mimeType := some "audio/wav", totalSize := none }).1 "r1").map
        (fun row => row.mime_type) = some "audio/wav" :=
  (finalize_uses_metadata Database.empty 3
    { recordingId := some "r1", filename := some "a.m4a", originalName := some "take1.m4a",
      mimeType := some "audio/wav", totalSize := none } "r1" rfl (by decide)
    (by decide)).2.2.1 "audio/wav" rfl (by decide)

/-- C25: when `updateData` is empty or maps every key to `undefined`, `updateAudioRecord`
resolves to `{id, changes: 0}` for every id, hands no statement to the engine, and
leaves the database (so `audio_recordings` and every `updated_at`) as it was. -/
theorem updateAudioRecord_noop {ε : Type}
    (exec : Database → Nat → Statement → Except ε (Database × Nat))
    (db : Database) (now : Nat) (id : String) (updateData : List (String × Option SqlValue))
    (hundefined : ∀ kv ∈ updateData, kv.2 = none) :
    updateAudioRecord exec db now id updateData = .ok (db, { id := id, changes := 0 }, []) := by
  have hnil : updateData.filterMap (fun kv => kv.2.map (fun v => (kv.1, v))) = [] := by
    rw [List.filterMap_eq_nil_iff]
    intro kv hkv
    rw [hundefined kv hkv]
    rfl
  simp [updateAudioRecord, hnil]

/-- Witness of C25: the keys `filename` and `mime_type`, both `undefined`. -/
theorem updateAudioRecord_noop_witness :
    updateAudioRecord (fun _ _ _ => (Except.error "no engine" : Except String (Database × Nat)))
        Database.empty 4 "r1" [("filename", none), ("mime_type", none)] =
      .ok (Database.empty, { id := "r1", changes := 0 }, []) :=
  updateAudioRecord_noop _ Database.empty 4 "r1" [("filename", none), ("mime_type", none)]
    (by decide)

end Lingua

namespace Lingua

/-! ## Isolation, sizes and atomicity (C26 - C29) -/

theorem assembleAudioFromChunks_congr {db₁ db₂ : Database} {recordingId : String}
    (h : db₁.audio_chunks.filter (fun row => row.recording_id == recordingId) =
      db₂.audio_chunks.filter (fun row => row.recording_id == recordingId)) :
    assembleAudioFromChunks db₁ recordingId = assembleAudioFromChunks db₂ recordingId := by
  simp only [assembleAudioFromChunks, selectChunksOrdered, h]

/-- C26: storing a chunk under an identifier `B` leaves the reassembly of every other
identifier `A` unchanged, and two databases whose `audio_chunks` agree on the rows with
`recording_id = A` reassemble `A` to the same bytes. -/
theorem reassembly_isolated (a b : String) (hab : a ≠ b) :
    (∀ (db : Database) (now : Nat) (chunkIndex : Int) (chunkData : Buffer),
      assembleAudioFromChunks (saveAudioChunk db now b chunkIndex chunkData).1 a =
        assembleAudioFromChunks db a) ∧
    (∀ db₁ db₂ : Database,
      db₁.audio_chunks.filter (fun row => row.recording_id = a) =
        db₂.audio_chunks.filter (fun row => row.recording_id = a) →
      assembleAudioFromChunks db₁ a = assembleAudioFromChunks db₂ a) := by
  refine ⟨?_, ?_⟩
  · intro db now chunkIndex chunkData
    rw [assembleAudioFromChunks_eq_views, assembleAudioFromChunks_eq_views,
      chunkViews_saveAudioChunk_of_ne db now (Ne.symm hab)]
  · intro db₁ db₂ h
    apply assembleAudioFromChunks_congr
    simpa using h

/-- Witness of C26: a chunk stored under `"r2"` next to the chunks of `"r1"`. -/
theorem reassembly_isolated_witness :
    assembleAudioFromChunks
      (saveAudioChunk (saveAudioChunks (fun k => k) "r1" [(1, [3]), (0, [1, 2])] 0 Database.empty)
        9 "r2" 0 [7, 7]).1 "r1" =
      assembleAudioFromChunks
        (saveAudioChunks (fun k => k) "r1" [(1, [3]), (0, [1, 2])] 0 Database.empty) "r1" :=
  (reassembly_isolated "r1" "r2" (by decide)).1
    (saveAudioChunks (fun k => k) "r1" [(1, [3]), (0, [1, 2])] 0 Database.empty) 9 0 [7, 7]

theorem storedChunkSizes_eq_bytes (db : Database) (recordingId : String)
    (hsize : ∀ row ∈ db.audio_chunks, row.chunk_size = row.chunk_data.length) :
    storedChunkSizes db recordingId = storedChunkBytes db recordingId := by
  unfold storedChunkSizes storedChunkBytes
  congr 1
  apply List.map_congr_left
  intro row hrow
  exact hsize row (List.mem_filter.mp hrow).1

/-- One request keeps `chunk_size` equal to the length of `chunk_data` on every row. -/
theorem handle_keeps_chunk_size (db : Database) (now : Nat) (req : Request)
    (hsize : ∀ row ∈ db.audio_chunks, row.chunk_size = row.chunk_data.length) :
    ∀ row ∈ (handle db now req).1.audio_chunks, row.chunk_size = row.chunk_data.length := by
  cases req with
  | uploadChunk body =>
    simp only [handle]
    rcases uploadChunk_cases db now body with ⟨_, heq⟩ | ⟨r, i, d, _, _, _, _, _, heq⟩
    · rw [heq]
      exact hsize
    · rw [heq]
      intro row hrow
      simp only [saveAudioChunk, List.mem_append, List.mem_singleton] at hrow
      rcases hrow with hrow | hrow
      · exact hsize row hrow
      · rw [hrow]
  | finalizeChunkedUpload body =>
    simp only [handle, finalizeChunkedUpload_audio_chunks]
    exact hsize
  | listAudio => exact hsize
  | getAudio other =>
    simp only [handle, getAudio]
    split <;> exact hsize
  | deleteAudio other =>
    simp only [handle, deleteAudio_audio_chunks]
    exact hsize
  | downloadAudio other =>
    simp only [handle, downloadAudio]
    split
    · exact hsize
    · split <;> exact hsize

theorem run_keeps_chunk_size (reqs : List (Nat × Request)) (db : Database)
    (hsize : ∀ row ∈ db.audio_chunks, row.chunk_size = row.chunk_data.length) :
    ∀ row ∈ (run db reqs).audio_chunks, row.chunk_size = row.chunk_data.length := by
  induction reqs generalizing db with
  | nil => exact hsize
  | cons item rest ih =>
    obtain ⟨now, req⟩ := item
    exact ih (handle db now req).1 (handle_keeps_chunk_size db now req hsize)

theorem saveAudioChunks_keeps_chunk_size (clock : Nat → Nat) (recordingId : String)
    (items : List (Int × Buffer)) (k : Nat) (db : Database)
    (hsize : ∀ row ∈ db.audio_chunks, row.chunk_size = row.chunk_data.length) :
    ∀ row ∈ (saveAudioChunks clock recordingId items k db).audio_chunks,
      row.chunk_size = row.chunk_data.length := by
  induction items generalizing k db with
  | nil => exact hsize
  | cons item rest ih =>
    obtain ⟨chunkIndex, chunkData⟩ := item
    simp only [saveAudioChunks]
    apply ih
    intro row hrow
    simp only [saveAudioChunk, List.mem_append, List.mem_singleton] at hrow
    rcases hrow with hrow | hrow
    · exact hsize row hrow
    · rw [hrow]

/-- C27: whenever every row of `audio_chunks` has `chunk_size` equal to the length of
its `chunk_data`, the byte length of `assembleAudioFromChunks(recordingId)` is the sum of
`chunk_size` over the rows with that `recording_id`, whatever their indices and order;
and every content the code produces is of this kind: the states reached from empty
tables by any requests, followed by any sequence of `saveAudioChunk` calls. -/
theorem assemble_length_eq_chunk_sizes :
    (∀ (db : Database) (recordingId : String),
      (∀ row ∈ db.audio_chunks, row.chunk_size = row.chunk_data.length) →
      (assembleAudioFromChunks db recordingId).length = storedChunkSizes db recordingId) ∧
    (∀ (reqs : List (Nat × Request)) (clock : Nat → Nat) (other : String)
        (items : List (Int × Buffer)) (k : Nat) (recordingId : String),
      (assembleAudioFromChunks
          (saveAudioChunks clock other items k (run Database.empty reqs)) recordingId).length =
        storedChunkSizes (saveAudioChunks clock other items k (run Database.empty reqs))
          recordingId) := by
  refine ⟨?_, ?_⟩
  · intro db recordingId hsize
    rw [length_assembleAudioFromChunks, storedChunkSizes_eq_bytes db recordingId hsize]
  · intro reqs clock other items k recordingId
    rw [length_assembleAudioFromChunks, storedChunkSizes_eq_bytes]
    exact saveAudioChunks_keeps_chunk_size clock other items k _
      (run_keeps_chunk_size reqs Database.empty
        (fun row hrow => absurd hrow (List.not_mem_nil row)))

/-- Witness of C27: chunks of `"r1"` at the indices 4, -2 and 4 with 1, 2 and 1 bytes. -/
theorem assemble_length_eq_chunk_sizes_witness :
    (assembleAudioFromChunks
        (saveAudioChunks (fun k => k) "r1" [(4, [1]), (-2, [2, 3]), (4, [5])] 0 Database.empty)
        "r1").length =
      storedChunkSizes
        (saveAudioChunks (fun k => k) "r1" [(4, [1]), (-2, [2, 3]), (4, [5])] 0 Database.empty)
        "r1" :=
  assemble_length_eq_chunk_sizes.1
    (saveAudioChunks (fun k => k) "r1" [(4, [1]), (-2, [2, 3]), (4, [5])] 0 Database.empty)
    "r1" (by decide)

/-- C28: a finalize request for a non-empty `recordingId` that already has a recording
answers 500 and leaves the whole database, every row of `audio_recordings` and of
`audio_chunks`, exactly as before, whatever the other fields of the request; a finalize
that answers 200 appends exactly one row, with `id = recordingId`, after the unchanged
rows of `audio_recordings`, and leaves `audio_chunks` as it was. -/
theorem failed_finalize_atomic (db : Database) (now : Nat) (body : FinalizeBody)
    (recordingId : String) (hid : body.recordingId = some recordingId) (hne : recordingId ≠ "") :
    ((∃ r ∈ db.audio_recordings, r.id = recordingId) →
      (finalizeChunkedUpload db now body).2.status = 500 ∧
      (finalizeChunkedUpload db now body).1.audio_recordings = db.audio_recordings ∧
      (finalizeChunkedUpload db now body).1.audio_chunks = db.audio_chunks ∧
      (finalizeChunkedUpload db now body).1 = db) ∧
    ((finalizeChunkedUpload db now body).2.status = 200 →
      ∃ row : AudioRecording, row.id = recordingId ∧
        (finalizeChunkedUpload db now body).1.audio_recordings = db.audio_recordings ++ [row] ∧
        (finalizeChunkedUpload db now body).1.audio_chunks = db.audio_chunks) := by
  refine ⟨?_, ?_⟩
  · intro hpresent
    rw [finalizeChunkedUpload_conflict db now body recordingId hid hne hpresent]
    exact ⟨rfl, rfl, rfl, rfl⟩
  · intro hok
    rcases finalizeChunkedUpload_cases db now body with ⟨_, hno⟩ | ⟨heq, _, _, _⟩
    · exact absurd hok hno
    · rw [heq]
      exact ⟨finalizedRow db now body, by simp [finalizedRow, hid], rfl, rfl⟩

/-- Witness of C28: a second finalize of `"r1"` with other metadata and `totalSize`. -/
theorem failed_finalize_atomic_witness :
    (finalizeChunkedUpload
      (run Database.empty
        [(1, .finalizeChunkedUpload
            { recordingId := some "r1", filename := some "a.m4a", originalName := none,
              mimeType := none, totalSize := none })]) 2
      { recordingId := some "r1", filename := some "b.m4a", originalName := some "b.m4a",
        mimeType := some "audio/wav", totalSize := some 77 }).1 =
      run Database.empty
        [(1, .finalizeChunkedUpload
            { recordingId := some "r1", filename := some "a.m4a", originalName := none,
              mimeType := none, totalSize := none })] :=
  ((failed_finalize_atomic
    (run Database.empty
      [(1, .finalizeChunkedUpload
          { recordingId := some "r1", filename := some "a.m4a", originalName := none,
            mimeType := none, totalSize := none })]) 2
    { recordingId := some "r1", filename := some "b.m4a", originalName := some "b.m4a",
      mimeType := some "audio/wav", totalSize := some 77 } "r1" rfl (by decide)).1
    (by decide)).2.2.2

theorem filter_id_ne_append_row (l : List AudioRecording) (row : AudioRecording)
    (habsent : ∀ r ∈ l, r.id ≠ row.id) :
    (l ++ [row]).filter (fun r => r.id != row.id) = l := by
  rw [List.filter_append, List.filter_eq_self.mpr (fun r hr => by simpa using habsent r hr)]
  simp

/-- C29: for a non-empty `recordingId` with stored chunks and no recording, the sequence
finalize, `DELETE /api/audio/:id`, finalize ends with the second finalize answering 200
and storing a payload byte-identical to the one the first finalize stored, the chunks
having stayed in `audio_chunks` across the deletion. -/
theorem orphan_chunks_reused (db : Database) (now₁ now₂ : Nat) (body₁ body₂ : FinalizeBody)
    (recordingId : String)
    (hid₁ : body₁.recordingId = some recordingId) (hid₂ : body₂.recordingId = some recordingId)
    (hne : recordingId ≠ "")
    (_hchunks : ∃ row ∈ db.audio_chunks, row.recording_id = recordingId)
    (habsent : ∀ r ∈ db.audio_recordings, r.id ≠ recordingId) :
    (finalizeChunkedUpload db now₁ body₁).2.status = 200 ∧
    (deleteAudio (finalizeChunkedUpload db now₁ body₁).1 recordingId).2.status = 200 ∧
    (finalizeChunkedUpload
      (deleteAudio (finalizeChunkedUpload db now₁ body₁).1 recordingId).1 now₂ body₂).2.status
      = 200 ∧
    getAudioData
      (finalizeChunkedUpload
        (deleteAudio (finalizeChunkedUpload db now₁ body₁).1 recordingId).1 now₂ body₂).1
      recordingId =
      getAudioData (finalizeChunkedUpload db now₁ body₁).1 recordingId ∧
    getAudioData (finalizeChunkedUpload db now₁ body₁).1 recordingId =
      some (assembleAudioFromChunks db recordingId) := by
  have hrowid : (finalizedRow db now₁ body₁).id = recordingId := by simp [finalizedRow, hid₁]
  have hfirst := getAudioData_finalize_fresh db now₁ body₁ recordingId hid₁ hne habsent
  have hpresent : ∃ r ∈ (finalizeChunkedUpload db now₁ body₁).1.audio_recordings,
      r.id = recordingId := by
    rw [finalizeChunkedUpload_fresh db now₁ body₁ recordingId hid₁ hne habsent]
    exact ⟨_, List.mem_append_right _ (List.mem_singleton_self _), hrowid⟩
  have hrecs : (deleteAudio (finalizeChunkedUpload db now₁ body₁).1 recordingId).1.audio_recordings
      = db.audio_recordings := by
    rw [deleteAudio_audio_recordings,
      finalizeChunkedUpload_fresh db now₁ body₁ recordingId hid₁ hne habsent]
    have h := filter_id_ne_append_row db.audio_recordings (finalizedRow db now₁ body₁)
      (by rw [hrowid]; exact habsent)
    rw [hrowid] at h
    exact h
  have hchunks2 : (deleteAudio (finalizeChunkedUpload db now₁ body₁).1 recordingId).1.audio_chunks
      = db.audio_chunks := by
    rw [deleteAudio_audio_chunks, finalizeChunkedUpload_audio_chunks]
  have habsent2 : ∀ r ∈ (deleteAudio (finalizeChunkedUpload db now₁ body₁).1
      recordingId).1.audio_recordings, r.id ≠ recordingId := by
    rw [hrecs]
    exact habsent
  have hsecond := getAudioData_finalize_fresh _ now₂ body₂ recordingId hid₂ hne habsent2
  have hassemble : assembleAudioFromChunks
      (deleteAudio (finalizeChunkedUpload db now₁ body₁).1 recordingId).1 recordingId =
      assembleAudioFromChunks db recordingId :=
    assembleAudioFromChunks_congr (by rw [hchunks2])
  refine ⟨?_, deleteAudio_status_of_present _ recordingId hpresent, ?_, ?_, hfirst⟩
  · rw [finalizeChunkedUpload_fresh db now₁ body₁ recordingId hid₁ hne habsent]
  · rw [finalizeChunkedUpload_fresh _ now₂ body₂ recordingId hid₂ hne habsent2]
  · rw [hsecond, hfirst, hassemble]

/-- Witness of C29: the chunks `[1, 2]` and `[3]` of `"r1"`. -/
theorem orphan_chunks_reused_witness :
    getAudioData
      (finalizeChunkedUpload
        (deleteAudio
          (finalizeChunkedUpload
            (saveAudioChunks (fun k => k) "r1" [(0, [1, 2]), (1, [3])] 0 Database.empty) 5
            { recordingId := some "r1", filename := some "a.m4a", originalName := none,
              mimeType := none, totalSize := none }).1 "r1").1 9
        { recordingId := some "r1", filename := some "a.m4a", originalName := none,
          mimeType := none, totalSize := none }).1 "r1" = some [1, 2, 3] :=
  ((orphan_chunks_reused
    (saveAudioChunks (fun k => k) "r1" [(0, [1, 2]), (1, [3])] 0 Database.empty) 5 9
    { recordingId := some "r1", filename := some "a.m4a", originalName := none,
      mimeType := none, totalSize := none }
    { recordingId := some "r1", filename := some "a.m4a", originalName := none,
      mimeType := none, totalSize := none } "r1" rfl rfl (by decide) (by decide)
    (by decide)).2.2.2.1).trans
  (orphan_chunks_reused
    (saveAudioChunks (fun k => k) "r1" [(0, [1, 2]), (1, [3])] 0 Database.empty) 5 9
    { recordingId := some "r1", filename := some "a.m4a", originalName := none,
      mimeType := none, totalSize := none }
    { recordingId := some "r1", filename := some "a.m4a", originalName := none,
      mimeType := none, totalSize := none } "r1" rfl rfl (by decide) (by decide)
    (by decide)).2.2.2.2

end Lingua
